import Mathlib

/-!
# CRandomSearchModelSelection::select_model

A shallow embedding of `src/shogun/modelselection/RandomSearchModelSelection.cpp`.

* A `CDynamicObjectArray` is a list of pointers, `List (Option α)`; `none` is `NULL` and `α`
  is the identity of a `CParameterCombination` object.
* A finite `float64_t` is modelled by its exact rational value: comparisons are exact, a
  product is rounded to the nearest binary64 (`float64_round`).  NaN and infinities are not
  modelled.
* The collaborators that live outside this file (the combination producer, the sampler, the
  evaluator, the two `CMath` sentinels) are the fields of `Env`.
* Everything `select_model` does to the outside world is recorded, in program order, in a
  trace of `Event`s.
-/

namespace Shogun

/-- The optimisation direction reported by `m_machine_eval->get_evaluation_direction()`. -/
inductive EEvaluationDirection where
  | ED_MINIMIZE
  | ED_MAXIMIZE
  deriving DecidableEq, Repr

/-- The result-kind tag returned by `get_result_type()`; the source only names
`CROSSVALIDATION_RESULT`. -/
inductive EEvaluationResultType where
  | CROSSVALIDATION_RESULT
  | GRADIENTEVALUATION_RESULT
  deriving DecidableEq, Repr

/-- The part of a `CCrossValidationResult` that `select_model` reads. -/
structure CCrossValidationResult where
  mean : ℚ
  result_type : EEvaluationResultType
  deriving DecidableEq

/-- The fixed texts `select_model` prints when `print_state` is set. -/
inductive PrintMsg where
  | generating_parameter_combinations
  | direction_is_maximize
  | direction_is_minimize
  | trying_combination
  deriving DecidableEq, Repr

/-- What `select_model` does to the outside world.  `get_element c` is a call of
`CDynamicObjectArray::get_element` that returned the object `c` (one reference acquired),
`SG_UNREF c` releases one reference of the candidate `c`.  The reference an array itself
holds on an element (taken by `append_element`, dropped when `SG_UNREF(combinations)`
destroys the array) and the references on result objects are not traced. -/
inductive Event (α : Type) where
  | SG_PRINT (m : PrintMsg)
  | print_tree (c : α)
  | print_result (r : CCrossValidationResult)
  | get_element (c : α)
  | SG_UNREF (c : α)
  | apply_to_modsel_parameter (c : α)
  | evaluate (call : Nat)
  deriving DecidableEq

/-- How a run of `select_model` can fail: `SG_ERROR` at line 90, or a member call on a
`NULL` combination (lines 79 and 82). -/
inductive Failure where
  | unexpected_result_type
  | null_dereference
  deriving DecidableEq, Repr

/-- The collaborators of `select_model`.
* `get_combinations`: the array `m_model_parameters->get_combinations()` returns;
* `m_ratio`: the configured ratio (the value of a finite double);
* `sample_indices sample_size N`: the vector `CStatistics::sample_indices` returns;
* `get_evaluation_direction`: the evaluator's direction;
* `evaluate k`: the result of the `k`-th call (from 0) of `m_machine_eval->evaluate()`,
  whatever the machine state that call reads;
* `ALMOST_NEG_INFTY`, `ALMOST_INFTY`: the two `CMath` constants. -/
structure Env (α : Type) where
  get_combinations : List α
  m_ratio : ℚ
  sample_indices : Int → Int → List Int
  get_evaluation_direction : EEvaluationDirection
  evaluate : Nat → CCrossValidationResult
  ALMOST_NEG_INFTY : ℚ
  ALMOST_INFTY : ℚ

/-- The mutable state of the main loop (lines 52-141): `best_result`, `best_combination`,
the number of evaluator calls made, the trace, and the failure raised, if any. -/
structure LoopState (α : Type) where
  best_result : CCrossValidationResult
  best_combination : Option α
  n_evaluate : Nat
  trace : List (Event α)
  error : Option Failure

/-- How a call of `select_model` ends: a failure is raised, or a pointer is returned
(`none` is `NULL`). -/
inductive Returned (α : Type) where
  | failure (f : Failure)
  | pointer (c : Option α)
  deriving DecidableEq

/-- What a run of `select_model` leaves behind: how it ended, the working array
`combinations` as built by lines 47-50, and the state of the main loop at exit. -/
structure Run (α : Type) where
  returned : Returned α
  combinations : List (Option α)
  final : LoopState α

/-- Round to the nearest integer, ties to the even one. -/
def round_half_even (y : ℚ) : Int :=
  if y - ⌊y⌋ < 1 / 2 then ⌊y⌋
  else if 1 / 2 < y - ⌊y⌋ then ⌊y⌋ + 1
  else if ⌊y⌋ % 2 = 0 then ⌊y⌋
  else ⌊y⌋ + 1

/-- The exponent of the unit in the last place of the binary64 nearest to `q`: 53
significant bits, and never below the subnormal step `2 ^ (-1074)`. -/
def float64_ulp_exponent (q : ℚ) : Int :=
  max (Int.log 2 |q| - 52) (-1074)

/-- The value of a `float64_t` operation whose exact result is `q`: IEEE-754 binary64,
round to nearest, ties to even.  Overflow to infinity is not modelled (no product of
`select_model` with a ratio in (0, 1] exceeds `2 ^ 31`). -/
def float64_round (q : ℚ) : ℚ :=
  if q = 0 then 0
  else (round_half_even (q / 2 ^ float64_ulp_exponent q) : ℚ) * 2 ^ float64_ulp_exponent q

/-- The implicit conversion of a `float64_t` to the `int32_t` parameter `sample_size`:
the fractional part is discarded (truncation toward zero).  The conversion is undefined
outside the `int32_t` range, which is not modelled. -/
def float64_to_int32 (x : ℚ) : Int :=
  Int.tdiv x.num x.den

/-- Line 45, first argument of `sample_indices`: `n_all_combinations*m_ratio`, a
`float64_t` product (the `int32_t` factor converts exactly) converted to `int32_t`. -/
def sample_size (n_all_combinations : Nat) (m_ratio : ℚ) : Int :=
  float64_to_int32 (float64_round ((n_all_combinations : ℚ) * m_ratio))

section Model

variable {α : Type}

/-- Modelled from the spec: `CDynamicObjectArray::get_element` is declared outside `src/`.
It returns the pointer stored at `index`, and `NULL` from its out-of-range branch. -/
def get_element (array : List (Option α)) (index : Nat) : Option α :=
  (array[index]?).join

/-- The reference a non-`NULL` result of `get_element` carries. -/
def acquired (c : Option α) : List (Event α) :=
  match c with
  | none => []
  | some c => [Event.get_element c]

/-- The macro `SG_UNREF(x)`: a no-op on `NULL`, else one reference of `x` is released. -/
def SG_UNREF (c : Option α) : List (Event α) :=
  match c with
  | none => []
  | some c => [Event.SG_UNREF c]

/-- Printing is guarded by `print_state` everywhere (lines 37, 57, 62, 76, 92). -/
def printed (print_state : Bool) (es : List (Event α)) : List (Event α) :=
  if print_state then es else []

/-- Lines 47-50: `combinations` receives `all_combinations->get_element(i)` for every
`i < vlen`, where `vlen` is the length of the sampled index vector; `append_element`
stores the pointer it is given. -/
def build_combinations (all_combinations : List (Option α)) (vlen : Nat) :
    List (Option α) :=
  (List.range vlen).map (fun i => get_element all_combinations i)

/-- The references lines 49-50 acquire, in order. -/
def build_trace (all_combinations : List (Option α)) (vlen : Nat) : List (Event α) :=
  (List.range vlen).flatMap (fun i => acquired (get_element all_combinations i))

/-- Lines 52-64: `best_result` starts at the sentinel of the direction,
`best_combination` at `NULL`; `trace` is what happened before. -/
def initial_state (env : Env α) (print_state : Bool) (trace : List (Event α)) :
    LoopState α :=
  match env.get_evaluation_direction with
  | EEvaluationDirection.ED_MAXIMIZE =>
    { best_result := ⟨env.ALMOST_NEG_INFTY, EEvaluationResultType.CROSSVALIDATION_RESULT⟩
      best_combination := none
      n_evaluate := 0
      trace := trace ++ printed print_state [Event.SG_PRINT PrintMsg.direction_is_maximize]
      error := none }
  | EEvaluationDirection.ED_MINIMIZE =>
    { best_result := ⟨env.ALMOST_INFTY, EEvaluationResultType.CROSSVALIDATION_RESULT⟩
      best_combination := none
      n_evaluate := 0
      trace := trace ++ printed print_state [Event.SG_PRINT PrintMsg.direction_is_minimize]
      error := none }

/-- One iteration of the main loop, lines 72-140, at loop index `i`. -/
def loop_body (env : Env α) (print_state : Bool) (combinations : List (Option α))
    (i : Nat) (s : LoopState α) : LoopState α :=
  match get_element combinations i with
  | none => { s with error := some Failure.null_dereference }
  | some current_combination =>
    let result := env.evaluate s.n_evaluate
    let t1 := s.trace ++ [Event.get_element current_combination]
      ++ printed print_state
          [Event.SG_PRINT PrintMsg.trying_combination, Event.print_tree current_combination]
      ++ [Event.apply_to_modsel_parameter current_combination, Event.evaluate s.n_evaluate]
    if result.result_type ≠ EEvaluationResultType.CROSSVALIDATION_RESULT then
      { s with n_evaluate := s.n_evaluate + 1
               trace := t1
               error := some Failure.unexpected_result_type }
    else
      let t2 := t1 ++ printed print_state [Event.print_result result]
      match env.get_evaluation_direction with
      | EEvaluationDirection.ED_MAXIMIZE =>
        if result.mean > s.best_result.mean then
          { s with best_result := result
                   best_combination := get_element combinations i
                   n_evaluate := s.n_evaluate + 1
                   trace := t2 ++ SG_UNREF s.best_combination
                     ++ acquired (get_element combinations i)
                     ++ [Event.SG_UNREF current_combination] }
        else
          { s with n_evaluate := s.n_evaluate + 1
                   trace := t2 ++ acquired (get_element combinations i)
                     ++ SG_UNREF (get_element combinations i)
                     ++ [Event.SG_UNREF current_combination] }
      | EEvaluationDirection.ED_MINIMIZE =>
        if result.mean < s.best_result.mean then
          { s with best_result := result
                   best_combination := get_element combinations i
                   n_evaluate := s.n_evaluate + 1
                   trace := t2 ++ SG_UNREF s.best_combination
                     ++ acquired (get_element combinations i)
                     ++ [Event.SG_UNREF current_combination] }
        else
          { s with n_evaluate := s.n_evaluate + 1
                   trace := t2 ++ acquired (get_element combinations i)
                     ++ SG_UNREF (get_element combinations i)
                     ++ [Event.SG_UNREF current_combination] }

/-- The main loop, line 70, over the loop indices still to visit; a raised failure ends
it. -/
def main_loop (env : Env α) (print_state : Bool) (combinations : List (Option α)) :
    List Nat → LoopState α → LoopState α
  | [], s => s
  | i :: rest, s =>
    match (loop_body env print_state combinations i s).error with
    | some _ => loop_body env print_state combinations i s
    | none =>
      main_loop env print_state combinations rest (loop_body env print_state combinations i s)

/-- Line 45: the vector `combinations_indices` the sampler returns for this run. -/
def combinations_indices (env : Env α) : List Int :=
  env.sample_indices (sample_size env.get_combinations.length env.m_ratio)
    env.get_combinations.length

/-- The state of the main loop after its first `k` iterations, started in `s0`. -/
def state_after (env : Env α) (print_state : Bool) (combinations : List (Option α))
    (s0 : LoopState α) (k : Nat) : LoopState α :=
  main_loop env print_state combinations (List.range k) s0

/-- The trace of lines 37-50, before `best_result` is created. -/
def trace_before_loop (env : Env α) (print_state : Bool) : List (Event α) :=
  printed print_state [Event.SG_PRINT PrintMsg.generating_parameter_combinations]
    ++ build_trace (env.get_combinations.map some) (combinations_indices env).length

/-- The function `CRandomSearchModelSelection::select_model(bool print_state)`, lines
35-148. -/
def select_model (env : Env α) (print_state : Bool) : Run α :=
  let all_combinations : List (Option α) := env.get_combinations.map some
  let combinations :=
    build_combinations all_combinations (combinations_indices env).length
  let final := main_loop env print_state combinations (List.range combinations.length)
    (initial_state env print_state (trace_before_loop env print_state))
  { returned :=
      match final.error with
      | some failure => Returned.failure failure
      | none => Returned.pointer final.best_combination
    combinations := combinations
    final := final }

/-- The first `k` iterations meet no `NULL` combination and no malformed outcome. -/
def ok_upto (env : Env α) (combinations : List (Option α)) (k : Nat) : Prop :=
  ∀ i < k, (∃ c, get_element combinations i = some c)
    ∧ (env.evaluate i).result_type = EEvaluationResultType.CROSSVALIDATION_RESULT

/-- The means of the first `n` outcomes of the evaluator, in call order. -/
def outcome_means (env : Env α) (n : Nat) : List ℚ :=
  (List.range n).map (fun i => (env.evaluate i).mean)

/-- The first `n` outcomes of the evaluator all carry the tag `CROSSVALIDATION_RESULT`. -/
def well_formed (env : Env α) (n : Nat) : Prop :=
  ∀ i < n, (env.evaluate i).result_type = EEvaluationResultType.CROSSVALIDATION_RESULT

/-- The mean `best_result` starts from: the sentinel of the direction (lines 58, 63). -/
def sentinel_mean (env : Env α) : ℚ :=
  match env.get_evaluation_direction with
  | EEvaluationDirection.ED_MAXIMIZE => env.ALMOST_NEG_INFTY
  | EEvaluationDirection.ED_MINIMIZE => env.ALMOST_INFTY

/-- The comparison of lines 98 and 119: `a` strictly improves on `b` under the direction. -/
def improves (d : EEvaluationDirection) (a b : ℚ) : Prop :=
  match d with
  | EEvaluationDirection.ED_MAXIMIZE => a > b
  | EEvaluationDirection.ED_MINIMIZE => a < b

instance (env : Env α) (n : Nat) : Decidable (well_formed env n) := by
  unfold well_formed
  infer_instance

instance (d : EEvaluationDirection) (a b : ℚ) : Decidable (improves d a b) := by
  unfold improves
  cases d <;> infer_instance

/-- The direction folded into the order: a mean improves on another exactly when its
rank is larger. -/
def rank (d : EEvaluationDirection) (x : ℚ) : ℚ :=
  match d with
  | EEvaluationDirection.ED_MAXIMIZE => x
  | EEvaluationDirection.ED_MINIMIZE => -x

/-- The candidates applied to the machine, in order. -/
def applied_candidates (trace : List (Event α)) : List α :=
  trace.filterMap (fun e =>
    match e with
    | Event.apply_to_modsel_parameter c => some c
    | _ => none)

/-- The evaluator calls made, in order, by call number. -/
def evaluate_calls (trace : List (Event α)) : List Nat :=
  trace.filterMap (fun e =>
    match e with
    | Event.evaluate k => some k
    | _ => none)

/-- References acquired on `c` minus references released on `c`. -/
def net_references [DecidableEq α] (c : α) (trace : List (Event α)) : Int :=
  (trace.count (Event.get_element c) : Int) - (trace.count (Event.SG_UNREF c) : Int)

end Model

/-! ## Concrete runs -/

/-- The three candidates of the scenarios of the specification. -/
inductive Candidate where
  | c0
  | c1
  | c2
  deriving DecidableEq, Repr

/-- A sampler that returns the first `sample_size` indices. -/
def first_indices (sample_size : Int) (_N : Int) : List Int :=
  (List.range sample_size.toNat).map Int.ofNat

/-- A sampler that returns the last `sample_size` indices below `N`, ascending. -/
def last_indices (sample_size : Int) (N : Int) : List Int :=
  (List.range sample_size.toNat).map (fun i => N - sample_size + Int.ofNat i)

/-- The evaluator that returns the listed outcomes in turn (and a zero cross-validation
result once the list is used up). -/
def outcomes_in_turn (outcomes : List CCrossValidationResult) (k : Nat) :
    CCrossValidationResult :=
  outcomes.getD k ⟨0, EEvaluationResultType.CROSSVALIDATION_RESULT⟩

/-- A cross-validation result of the given mean. -/
def cv (mean : ℚ) : CCrossValidationResult :=
  ⟨mean, EEvaluationResultType.CROSSVALIDATION_RESULT⟩

/-- Scenarios A (`ED_MAXIMIZE`) and B (`ED_MINIMIZE`) of the specification: the space
`[c0, c1, c2]` with means 0.70, 0.95, 0.81 at ratio 1; the sentinels are taken of
magnitude 1000. -/
def scenario (direction : EEvaluationDirection) : Env Candidate :=
  { get_combinations := [Candidate.c0, Candidate.c1, Candidate.c2]
    m_ratio := 1
    sample_indices := first_indices
    get_evaluation_direction := direction
    evaluate := outcomes_in_turn [cv 0.70, cv 0.95, cv 0.81]
    ALMOST_NEG_INFTY := -1000
    ALMOST_INFTY := 1000 }

/-- Scenario A at ratio 1/4: three candidates, requested sample size 0. -/
def scenario_quarter : Env Candidate :=
  { scenario EEvaluationDirection.ED_MAXIMIZE with m_ratio := 1 / 4 }

/-- One candidate whose mean is the sentinel `ALMOST_NEG_INFTY` itself, maximising. -/
def scenario_sentinel : Env Candidate :=
  { scenario EEvaluationDirection.ED_MAXIMIZE with
    get_combinations := [Candidate.c0]
    evaluate := outcomes_in_turn [cv (-1000)] }

/-- Scenario A at ratio 1/2 with a sampler that draws the single index 2. -/
def scenario_last : Env Candidate :=
  { scenario EEvaluationDirection.ED_MAXIMIZE with
    m_ratio := 1 / 2
    sample_indices := last_indices }

/-- Scenario A with the ratio set to the double nearest to 1/3, `0x3FD5555555555555`. -/
def scenario_third : Env Candidate :=
  { scenario EEvaluationDirection.ED_MAXIMIZE with
    m_ratio := 6004799503160661 / 18014398509481984 }

/-- Scenario C of the specification: scenario A with the ratio set to the double nearest
to 0.34, `0x3FD5C28F5C28F5C3`. -/
def scenario_c : Env Candidate :=
  { scenario EEvaluationDirection.ED_MAXIMIZE with
    m_ratio := 6124895493223875 / 18014398509481984 }

/-- Scenario D of the specification: scenario A with a mismatched tag on the second
outcome. -/
def scenario_d : Env Candidate :=
  { scenario EEvaluationDirection.ED_MAXIMIZE with
    evaluate := outcomes_in_turn
      [cv 0.70, ⟨0.95, EEvaluationResultType.GRADIENTEVALUATION_RESULT⟩, cv 0.81] }

/-- Scenario E of the specification: an empty candidate space. -/
def scenario_e : Env Candidate :=
  { scenario EEvaluationDirection.ED_MAXIMIZE with get_combinations := [] }

/-- One candidate at ratio 1 whose mean lies beyond the sentinel of the direction, on the
losing side: -2000 when maximising, 2000 when minimising. -/
def scenario_lost (direction : EEvaluationDirection) : Env Candidate :=
  { scenario direction with
    get_combinations := [Candidate.c0]
    evaluate :=
      match direction with
      | EEvaluationDirection.ED_MAXIMIZE => outcomes_in_turn [cv (-2000)]
      | EEvaluationDirection.ED_MINIMIZE => outcomes_in_turn [cv 2000] }

/-- One candidate at ratio 1 whose mean equals the sentinel of the direction, for arbitrary
values `lo` of `ALMOST_NEG_INFTY` and `hi` of `ALMOST_INFTY`. -/
def scenario_tie (direction : EEvaluationDirection) (lo hi : ℚ) : Env Candidate :=
  { get_combinations := [Candidate.c0]
    m_ratio := 1
    sample_indices := first_indices
    get_evaluation_direction := direction
    evaluate :=
      match direction with
      | EEvaluationDirection.ED_MAXIMIZE => outcomes_in_turn [cv lo]
      | EEvaluationDirection.ED_MINIMIZE => outcomes_in_turn [cv hi]
    ALMOST_NEG_INFTY := lo
    ALMOST_INFTY := hi }

/-- Scenario A at ratio 3/4: sample size 2, so `c0` and `c1` are evaluated and `c2` is
not. -/
def scenario_two : Env Candidate :=
  { scenario EEvaluationDirection.ED_MAXIMIZE with m_ratio := 3 / 4 }

/-! ## Observations on a run -/

/-- The events that exist only when `print_state` is set. -/
def is_print {α : Type} (e : Event α) : Bool :=
  match e with
  | Event.SG_PRINT _ => true
  | Event.print_tree _ => true
  | Event.print_result _ => true
  | _ => false

/-- A trace with its print events removed. -/
def without_prints {α : Type} (trace : List (Event α)) : List (Event α) :=
  trace.filter (fun e => !is_print e)

/-- A loop state with the print events removed from its trace. -/
def silence {α : Type} (s : LoopState α) : LoopState α :=
  { s with trace := without_prints s.trace }

/-- Scenario A at ratio 1/2: sample size 1, the sampler draws the index 0. -/
def scenario_half : Env Candidate :=
  { scenario EEvaluationDirection.ED_MAXIMIZE with m_ratio := 1 / 2 }

/-- The state of the main loop of `select_model` after its first `k` iterations. -/
def loop_state {α : Type} (env : Env α) (print_state : Bool) (k : Nat) : LoopState α :=
  state_after env print_state (select_model env print_state).combinations
    (initial_state env print_state (trace_before_loop env print_state)) k

/-- The evaluator call that comes first in a trace, if the trace starts with one. -/
def next_evaluate {α : Type} (trace : List (Event α)) : Option Nat :=
  match trace with
  | Event.evaluate k :: _ => some k
  | _ => none

/-- Every application of a candidate to the machine, in order, each with the evaluator
call that follows it immediately in the trace (`none` when the next event is not an
evaluator call). -/
def applications {α : Type} : List (Event α) → List (α × Option Nat)
  | [] => []
  | Event.apply_to_modsel_parameter c :: rest => (c, next_evaluate rest) :: applications rest
  | _ :: rest => applications rest

/-- An outcome with its mean negated and its tag kept. -/
def negated (r : CCrossValidationResult) : CCrossValidationResult :=
  { r with mean := -r.mean }

/-- The other direction. -/
def flipped (d : EEvaluationDirection) : EEvaluationDirection :=
  match d with
  | EEvaluationDirection.ED_MAXIMIZE => EEvaluationDirection.ED_MINIMIZE
  | EEvaluationDirection.ED_MINIMIZE => EEvaluationDirection.ED_MAXIMIZE

/-- The mirror image of an environment: the other direction, every outcome mean negated,
and each sentinel the negation of the sentinel of the other direction. -/
def mirror {α : Type} (env : Env α) : Env α :=
  { env with
    get_evaluation_direction := flipped env.get_evaluation_direction
    evaluate := fun k => negated (env.evaluate k)
    ALMOST_NEG_INFTY := -env.ALMOST_INFTY
    ALMOST_INFTY := -env.ALMOST_NEG_INFTY }

/-- A loop state with the mean of `best_result` negated. -/
def mirror_state {α : Type} (s : LoopState α) : LoopState α :=
  { s with best_result := negated s.best_result }

/-- The candidates released by `SG_UNREF`, in order. -/
def releases {α : Type} (trace : List (Event α)) : List α :=
  trace.filterMap (fun e =>
    match e with
    | Event.SG_UNREF c => some c
    | _ => none)

/-- The candidates on which `get_element` acquired a reference, in order. -/
def acquisitions {α : Type} (trace : List (Event α)) : List α :=
  trace.filterMap (fun e =>
    match e with
    | Event.get_element c => some c
    | _ => none)

/-! ## The sample size -/

theorem round_half_even_int (z : Int) : round_half_even (z : ℚ) = z := by
  simp [round_half_even]

theorem round_half_even_nonneg (y : ℚ) (hy : 0 ≤ y) : 0 ≤ round_half_even y := by
  have h : 0 ≤ ⌊y⌋ := Int.floor_nonneg.mpr hy
  unfold round_half_even
  split_ifs <;> omega

theorem round_half_even_le (y : ℚ) (z : Int) (hy : y ≤ z) : round_half_even y ≤ z := by
  have h1 : (⌊y⌋ : ℚ) ≤ y := Int.floor_le y
  have h2 : ⌊y⌋ ≤ z := by
    have : ((⌊y⌋ : Int) : ℚ) ≤ (z : ℚ) := le_trans h1 hy
    exact_mod_cast this
  by_cases hf : y - ⌊y⌋ < 1 / 2
  · simp only [round_half_even, if_pos hf]; exact h2
  · have h3 : ⌊y⌋ + 1 ≤ z := by
      have : ((⌊y⌋ : Int) : ℚ) < (z : ℚ) := by
        have : (0 : ℚ) < y - ⌊y⌋ := lt_of_lt_of_le (by norm_num) (not_lt.mp hf)
        linarith
      have : ⌊y⌋ < z := by exact_mod_cast this
      omega
    unfold round_half_even
    split_ifs <;> omega

theorem float64_ulp_exponent_nonpos (x : ℚ) (hx : 0 < x) (hlt : x < 2 ^ 53) :
    float64_ulp_exponent x ≤ 0 := by
  have h : Int.log 2 |x| < 53 := by
    rw [abs_of_pos hx]
    have := (Int.lt_zpow_iff_log_lt (R := ℚ) (b := 2) (by norm_num) (x := 53) hx).mp
      (by exact_mod_cast hlt)
    exact this
  unfold float64_ulp_exponent
  omega

theorem two_zpow_nonpos (e : Int) (he : e ≤ 0) :
    ((2 : ℚ) ^ e) = (((2 ^ (-e).toNat : Int) : ℚ))⁻¹ := by
  have h : e = -((-e).toNat : Int) := by omega
  conv_lhs => rw [h]
  rw [zpow_neg]
  push_cast
  rw [zpow_natCast]

theorem float64_round_nonneg (x : ℚ) (hx : 0 ≤ x) : 0 ≤ float64_round x := by
  unfold float64_round
  split_ifs
  · exact le_refl _
  · have h2 : (0 : ℚ) < 2 ^ float64_ulp_exponent x := by positivity
    have : 0 ≤ round_half_even (x / 2 ^ float64_ulp_exponent x) :=
      round_half_even_nonneg _ (div_nonneg hx h2.le)
    have : (0 : ℚ) ≤ (round_half_even (x / 2 ^ float64_ulp_exponent x) : ℚ) := by
      exact_mod_cast this
    positivity

theorem float64_round_le (x : ℚ) (n : Nat) (hx : 0 ≤ x) (hxn : x ≤ n) (hn : n < 2 ^ 53) :
    float64_round x ≤ n := by
  unfold float64_round
  split_ifs with h0
  · exact_mod_cast Nat.zero_le n
  · have hpos : 0 < x := lt_of_le_of_ne hx (Ne.symm h0)
    have hlt : x < 2 ^ 53 := lt_of_le_of_lt hxn (by exact_mod_cast hn)
    have he := float64_ulp_exponent_nonpos x hpos hlt
    rw [two_zpow_nonpos _ he]
    set k := (-float64_ulp_exponent x).toNat with hk
    have hk0 : (0 : ℚ) < ((2 ^ k : Int) : ℚ) := by positivity
    have h1 : x / (((2 ^ k : Int) : ℚ))⁻¹ ≤ (((n : Int) * 2 ^ k : Int) : ℚ) := by
      rw [div_inv_eq_mul]
      push_cast
      exact mul_le_mul_of_nonneg_right hxn (by positivity)
    have h2 := round_half_even_le _ _ h1
    have h3 : (round_half_even (x / (((2 ^ k : Int) : ℚ))⁻¹) : ℚ)
        ≤ (((n : Int) * 2 ^ k : Int) : ℚ) := by exact_mod_cast h2
    calc (round_half_even (x / (((2 ^ k : Int) : ℚ))⁻¹) : ℚ) * (((2 ^ k : Int) : ℚ))⁻¹
        ≤ (((n : Int) * 2 ^ k : Int) : ℚ) * (((2 ^ k : Int) : ℚ))⁻¹ :=
          mul_le_mul_of_nonneg_right h3 (inv_nonneg.mpr hk0.le)
      _ = n := by
          push_cast
          field_simp

theorem float64_round_natCast (n : Nat) (hn : n < 2 ^ 53) : float64_round (n : ℚ) = n := by
  unfold float64_round
  split_ifs with h0
  · exact h0.symm
  · have hpos : (0 : ℚ) < n := lt_of_le_of_ne (by positivity) (Ne.symm h0)
    have hlt : (n : ℚ) < 2 ^ 53 := by exact_mod_cast hn
    have he := float64_ulp_exponent_nonpos (n : ℚ) hpos hlt
    rw [two_zpow_nonpos _ he]
    set k := (-float64_ulp_exponent (n : ℚ)).toNat with hk
    have hk0 : (0 : ℚ) < ((2 ^ k : Int) : ℚ) := by positivity
    have h1 : (n : ℚ) / (((2 ^ k : Int) : ℚ))⁻¹ = (((n : Int) * 2 ^ k : Int) : ℚ) := by
      rw [div_inv_eq_mul]
      push_cast
      ring
    rw [h1, round_half_even_int]
    push_cast
    field_simp

theorem float64_to_int32_eq_floor (x : ℚ) (hx : 0 ≤ x) : float64_to_int32 x = ⌊x⌋ := by
  unfold float64_to_int32
  rw [Rat.floor_def]
  exact Int.tdiv_eq_ediv (Rat.num_nonneg.mpr hx) (Int.natCast_nonneg _)

theorem sample_size_eq_floor (n : Nat) (r : ℚ) (hr : 0 ≤ r) :
    sample_size n r = ⌊float64_round ((n : ℚ) * r)⌋ := by
  unfold sample_size
  exact float64_to_int32_eq_floor _ (float64_round_nonneg _ (by positivity))

theorem sample_size_bounds (n : Nat) (r : ℚ) (hn : n < 2 ^ 53) (hr : 0 ≤ r) (hr1 : r ≤ 1) :
    0 ≤ sample_size n r ∧ sample_size n r ≤ n := by
  rw [sample_size_eq_floor n r hr]
  have hx : (0 : ℚ) ≤ (n : ℚ) * r := by positivity
  have hxn : (n : ℚ) * r ≤ n := by
    have : (0 : ℚ) ≤ n := by positivity
    nlinarith
  constructor
  · exact Int.floor_nonneg.mpr (float64_round_nonneg _ hx)
  · have h := float64_round_le _ n hx hxn hn
    have : ⌊float64_round ((n : ℚ) * r)⌋ ≤ ⌊((n : Int) : ℚ)⌋ :=
      Int.floor_le_floor (by exact_mod_cast h)
    simpa using this

theorem sample_size_one (n : Nat) (hn : n < 2 ^ 53) : sample_size n 1 = n := by
  rw [sample_size_eq_floor n 1 (by norm_num), mul_one, float64_round_natCast n hn]
  simp

theorem sample_size_zero (r : ℚ) : sample_size 0 r = 0 := by
  simp [sample_size, float64_round, float64_to_int32]

/-! ## The main loop -/

section Lemmas

variable {α : Type}

theorem main_loop_append (env : Env α) (ps : Bool) (cs : List (Option α))
    (xs ys : List Nat) (s : LoopState α) (hs : s.error = none) :
    main_loop env ps cs (xs ++ ys) s =
      if (main_loop env ps cs xs s).error = none then
        main_loop env ps cs ys (main_loop env ps cs xs s)
      else main_loop env ps cs xs s := by
  induction xs generalizing s with
  | nil => simp [main_loop, hs]
  | cons i rest ih =>
    simp only [List.cons_append, main_loop]
    cases h : (loop_body env ps cs i s).error with
    | none => simpa using ih _ h
    | some f => simp [h]

theorem loop_body_null (env : Env α) (ps : Bool) (cs : List (Option α)) (i : Nat)
    (s : LoopState α) (hc : get_element cs i = none) :
    loop_body env ps cs i s = { s with error := some Failure.null_dereference } := by
  simp [loop_body, hc]

theorem loop_body_error (env : Env α) (ps : Bool) (cs : List (Option α)) (i : Nat)
    (s : LoopState α) (c : α) (hc : get_element cs i = some c)
    (hty : (env.evaluate s.n_evaluate).result_type
      ≠ EEvaluationResultType.CROSSVALIDATION_RESULT) :
    (loop_body env ps cs i s).error = some Failure.unexpected_result_type
    ∧ (loop_body env ps cs i s).n_evaluate = s.n_evaluate + 1
    ∧ (loop_body env ps cs i s).best_combination = s.best_combination
    ∧ (loop_body env ps cs i s).best_result = s.best_result := by
  simp [loop_body, hc, hty]

theorem loop_body_ok (env : Env α) (ps : Bool) (cs : List (Option α)) (i : Nat)
    (s : LoopState α) (c : α) (hc : get_element cs i = some c)
    (hty : (env.evaluate s.n_evaluate).result_type
      = EEvaluationResultType.CROSSVALIDATION_RESULT) :
    (loop_body env ps cs i s).error = s.error
    ∧ (loop_body env ps cs i s).n_evaluate = s.n_evaluate + 1
    ∧ (loop_body env ps cs i s).best_result =
        (if rank env.get_evaluation_direction s.best_result.mean
            < rank env.get_evaluation_direction (env.evaluate s.n_evaluate).mean
          then env.evaluate s.n_evaluate else s.best_result)
    ∧ (loop_body env ps cs i s).best_combination =
        (if rank env.get_evaluation_direction s.best_result.mean
            < rank env.get_evaluation_direction (env.evaluate s.n_evaluate).mean
          then some c else s.best_combination) := by
  unfold loop_body
  simp only [hc, hty, ne_eq, not_true_eq_false, if_false]
  cases hd : env.get_evaluation_direction <;> simp only [rank, neg_lt_neg_iff, gt_iff_lt] <;>
    split_ifs <;> simp

theorem main_loop_single (env : Env α) (ps : Bool) (cs : List (Option α)) (i : Nat)
    (s : LoopState α) : main_loop env ps cs [i] s = loop_body env ps cs i s := by
  simp only [main_loop]
  cases h : (loop_body env ps cs i s).error <;> simp

theorem state_after_zero (env : Env α) (ps : Bool) (cs : List (Option α))
    (s0 : LoopState α) : state_after env ps cs s0 0 = s0 := by
  simp [state_after, main_loop]

theorem state_after_succ (env : Env α) (ps : Bool) (cs : List (Option α))
    (s0 : LoopState α) (h0 : s0.error = none) (k : Nat) :
    state_after env ps cs s0 (k + 1) =
      if (state_after env ps cs s0 k).error = none then
        loop_body env ps cs k (state_after env ps cs s0 k)
      else state_after env ps cs s0 k := by
  simp only [state_after, List.range_succ]
  rw [main_loop_append env ps cs _ _ s0 h0, main_loop_single]

theorem state_after_stuck (env : Env α) (ps : Bool) (cs : List (Option α))
    (s0 : LoopState α) (h0 : s0.error = none) (j : Nat)
    (hj : (state_after env ps cs s0 j).error ≠ none) (k : Nat) (hjk : j ≤ k) :
    state_after env ps cs s0 k = state_after env ps cs s0 j := by
  induction k with
  | zero =>
    have : j = 0 := by omega
    subst this; rfl
  | succ k ih =>
    rcases Nat.eq_or_lt_of_le hjk with h | h
    · rw [h]
    · have hk := ih (by omega)
      rw [state_after_succ env ps cs s0 h0, hk, if_neg hj]

theorem loop_body_error_of_ne (env : Env α) (ps : Bool) (cs : List (Option α)) (i : Nat)
    (s : LoopState α)
    (h : (loop_body env ps cs i s).error = none) :
    (∃ c, get_element cs i = some c)
      ∧ (env.evaluate s.n_evaluate).result_type
        = EEvaluationResultType.CROSSVALIDATION_RESULT := by
  cases hc : get_element cs i with
  | none => rw [loop_body_null env ps cs i s hc] at h; simp at h
  | some c =>
    refine ⟨⟨c, rfl⟩, ?_⟩
    by_contra hty
    have := (loop_body_error env ps cs i s c hc hty).1
    rw [this] at h
    simp at h

/-- The loop invariant of the main loop, for a run whose first `k` iterations raise no
failure. -/
theorem loop_invariant (env : Env α) (ps : Bool) (cs : List (Option α))
    (s0 : LoopState α) (h0e : s0.error = none) (h0n : s0.n_evaluate = 0)
    (h0c : s0.best_combination = none) (k : Nat) (hok : ok_upto env cs k) :
    (state_after env ps cs s0 k).error = none
    ∧ (state_after env ps cs s0 k).n_evaluate = k
    ∧ rank env.get_evaluation_direction s0.best_result.mean
        ≤ rank env.get_evaluation_direction (state_after env ps cs s0 k).best_result.mean
    ∧ (∀ i < k, rank env.get_evaluation_direction (env.evaluate i).mean
        ≤ rank env.get_evaluation_direction (state_after env ps cs s0 k).best_result.mean)
    ∧ ((state_after env ps cs s0 k).best_combination = none →
        (state_after env ps cs s0 k).best_result = s0.best_result)
    ∧ (∀ c, (state_after env ps cs s0 k).best_combination = some c →
        ∃ j < k, get_element cs j = some c
          ∧ (state_after env ps cs s0 k).best_result = env.evaluate j
          ∧ rank env.get_evaluation_direction s0.best_result.mean
              < rank env.get_evaluation_direction (env.evaluate j).mean
          ∧ ∀ i < j, rank env.get_evaluation_direction (env.evaluate i).mean
              < rank env.get_evaluation_direction (env.evaluate j).mean) := by
  induction k with
  | zero => simp [state_after_zero, h0e, h0n, h0c]
  | succ k ih =>
    obtain ⟨he, hn, hs, hle, hnone, hsome⟩ := ih (fun i hi => hok i (by omega))
    obtain ⟨⟨c, hc⟩, hty⟩ := hok k (by omega)
    rw [state_after_succ env ps cs s0 h0e, if_pos he]
    rw [← hn] at hty
    obtain ⟨e1, e2, e3, e4⟩ := loop_body_ok env ps cs k _ c hc hty
    rw [e1, e2, e3, e4, hn]
    refine ⟨he, rfl, ?_, ?_, ?_, ?_⟩
    · split_ifs with hb
      · exact le_of_lt (lt_of_le_of_lt hs hb)
      · exact hs
    · intro i hi
      rcases Nat.eq_or_lt_of_le (Nat.le_of_lt_succ hi) with h | h
      · subst h
        split_ifs with hb
        · exact le_refl _
        · exact not_lt.mp hb
      · split_ifs with hb
        · exact le_of_lt (lt_of_le_of_lt (hle i h) hb)
        · exact hle i h
    · split_ifs with hb
      · intro h; simp at h
      · exact hnone
    · intro c2
      split_ifs with hb
      · intro h
        have hcc : c = c2 := by simpa using h
        subst hcc
        refine ⟨k, by omega, hc, rfl, lt_of_le_of_lt hs hb, ?_⟩
        intro i hi
        exact lt_of_le_of_lt (hle i hi) hb
      · intro h
        obtain ⟨j, hj, r1, r2, r3, r4⟩ := hsome c2 h
        exact ⟨j, by omega, r1, r2, r3, r4⟩

theorem ok_upto_of_no_error (env : Env α) (ps : Bool) (cs : List (Option α))
    (s0 : LoopState α) (h0e : s0.error = none) (h0n : s0.n_evaluate = 0)
    (h0c : s0.best_combination = none) (k : Nat)
    (h : (state_after env ps cs s0 k).error = none) : ok_upto env cs k := by
  induction k with
  | zero => intro i hi; omega
  | succ k ih =>
    have hk : (state_after env ps cs s0 k).error = none := by
      by_contra hne
      rw [state_after_stuck env ps cs s0 h0e k hne (k + 1) (by omega)] at h
      exact hne h
    have hok := ih hk
    rw [state_after_succ env ps cs s0 h0e, if_pos hk] at h
    have hb := loop_body_error_of_ne env ps cs k _ h
    rw [(loop_invariant env ps cs s0 h0e h0n h0c k hok).2.1] at hb
    intro i hi
    rcases Nat.eq_or_lt_of_le (Nat.le_of_lt_succ hi) with h1 | h1
    · subst h1; exact hb
    · exact hok i h1

theorem build_combinations_length (a : List (Option α)) (v : Nat) :
    (build_combinations a v).length = v := by
  simp [build_combinations]

theorem get_element_build (a : List (Option α)) (v i : Nat) (hi : i < v) :
    get_element (build_combinations a v) i = get_element a i := by
  simp [get_element, build_combinations, List.getElem?_map, List.getElem?_range hi]

theorem get_element_map_some (l : List α) (i : Nat) :
    get_element (l.map some) i = l[i]? := by
  simp only [get_element, List.getElem?_map]
  cases l[i]? <;> rfl

theorem initial_state_facts (env : Env α) (ps : Bool) (t : List (Event α)) :
    (initial_state env ps t).error = none
    ∧ (initial_state env ps t).n_evaluate = 0
    ∧ (initial_state env ps t).best_combination = none
    ∧ (initial_state env ps t).best_result.mean = sentinel_mean env
    ∧ (initial_state env ps t).best_result.result_type
        = EEvaluationResultType.CROSSVALIDATION_RESULT := by
  unfold initial_state sentinel_mean
  cases env.get_evaluation_direction <;> simp

theorem rank_lt_iff (d : EEvaluationDirection) (a b : ℚ) :
    rank d b < rank d a ↔ improves d a b := by
  cases d <;> simp [rank, improves]

theorem rank_le_iff (d : EEvaluationDirection) (a b : ℚ) :
    rank d a ≤ rank d b ↔ ¬ improves d a b := by
  cases d <;> simp [rank, improves]

theorem applied_candidates_append (t u : List (Event α)) :
    applied_candidates (t ++ u) = applied_candidates t ++ applied_candidates u := by
  simp [applied_candidates]

theorem evaluate_calls_append (t u : List (Event α)) :
    evaluate_calls (t ++ u) = evaluate_calls t ++ evaluate_calls u := by
  simp [evaluate_calls]

theorem applied_candidates_acquired (c : Option α) :
    applied_candidates (acquired c) = [] := by
  cases c <;> simp [applied_candidates, acquired]

theorem evaluate_calls_acquired (c : Option α) :
    evaluate_calls (acquired c : List (Event α)) = [] := by
  cases c <;> simp [evaluate_calls, acquired]

theorem applied_candidates_unref (c : Option α) :
    applied_candidates (SG_UNREF c) = [] := by
  cases c <;> simp [applied_candidates, SG_UNREF]

theorem evaluate_calls_unref (c : Option α) :
    evaluate_calls (SG_UNREF c : List (Event α)) = [] := by
  cases c <;> simp [evaluate_calls, SG_UNREF]

theorem applied_candidates_build_trace (a : List (Option α)) (v : Nat) :
    applied_candidates (build_trace a v) = [] := by
  unfold build_trace
  induction List.range v with
  | nil => simp [applied_candidates]
  | cons i l ih =>
    rw [List.flatMap_cons, applied_candidates_append, applied_candidates_acquired, ih]
    rfl

theorem evaluate_calls_build_trace (a : List (Option α)) (v : Nat) :
    evaluate_calls (build_trace a v) = [] := by
  unfold build_trace
  induction List.range v with
  | nil => simp [evaluate_calls]
  | cons i l ih =>
    rw [List.flatMap_cons, evaluate_calls_append, evaluate_calls_acquired, ih]
    rfl

theorem initial_state_trace (env : Env α) (ps : Bool) (t : List (Event α)) :
    applied_candidates (initial_state env ps t).trace = applied_candidates t
    ∧ evaluate_calls (initial_state env ps t).trace = evaluate_calls t := by
  unfold initial_state
  cases env.get_evaluation_direction <;> cases ps <;>
    simp [applied_candidates, evaluate_calls, printed]

theorem applied_candidates_cons (e : Event α) (t : List (Event α)) :
    applied_candidates (e :: t)
      = (match e with
          | Event.apply_to_modsel_parameter c => [c]
          | _ => []) ++ applied_candidates t := by
  cases e <;> simp [applied_candidates]

theorem evaluate_calls_cons (e : Event α) (t : List (Event α)) :
    evaluate_calls (e :: t)
      = (match e with
          | Event.evaluate k => [k]
          | _ => []) ++ evaluate_calls t := by
  cases e <;> simp [evaluate_calls]

theorem applied_candidates_nil : applied_candidates ([] : List (Event α)) = [] := rfl

theorem evaluate_calls_nil : evaluate_calls ([] : List (Event α)) = [] := rfl

theorem applied_candidates_printed (ps : Bool) (es : List (Event α))
    (h : applied_candidates es = []) : applied_candidates (printed ps es) = [] := by
  cases ps <;> simp [printed, h, applied_candidates_nil]

theorem evaluate_calls_printed (ps : Bool) (es : List (Event α))
    (h : evaluate_calls es = []) : evaluate_calls (printed ps es) = [] := by
  cases ps <;> simp [printed, h, evaluate_calls_nil]

theorem loop_body_trace (env : Env α) (ps : Bool) (cs : List (Option α)) (i : Nat)
    (s : LoopState α) (c : α) (hc : get_element cs i = some c) :
    applied_candidates (loop_body env ps cs i s).trace = applied_candidates s.trace ++ [c]
    ∧ evaluate_calls (loop_body env ps cs i s).trace
        = evaluate_calls s.trace ++ [s.n_evaluate] := by
  have p1 : applied_candidates (printed ps
      [Event.SG_PRINT PrintMsg.trying_combination, Event.print_tree c]) = [] :=
    applied_candidates_printed _ _ (by simp [applied_candidates_cons, applied_candidates_nil])
  have p2 : evaluate_calls (printed ps
      [Event.SG_PRINT PrintMsg.trying_combination, Event.print_tree c]) = [] :=
    evaluate_calls_printed _ _ (by simp [evaluate_calls_cons, evaluate_calls_nil])
  have p3 : ∀ r, applied_candidates (printed ps [(Event.print_result r : Event α)]) = [] :=
    fun r => applied_candidates_printed _ _
      (by simp [applied_candidates_cons, applied_candidates_nil])
  have p4 : ∀ r, evaluate_calls (printed ps [(Event.print_result r : Event α)]) = [] :=
    fun r => evaluate_calls_printed _ _ (by simp [evaluate_calls_cons, evaluate_calls_nil])
  unfold loop_body
  simp only [hc]
  by_cases hty : (env.evaluate s.n_evaluate).result_type
      = EEvaluationResultType.CROSSVALIDATION_RESULT
  · simp only [hty, ne_eq, not_true_eq_false, if_false]
    rcases hd : env.get_evaluation_direction <;> simp only [] <;> split_ifs <;>
      simp [applied_candidates_append, evaluate_calls_append, applied_candidates_unref,
        evaluate_calls_unref, applied_candidates_acquired, evaluate_calls_acquired,
        applied_candidates_cons, evaluate_calls_cons, applied_candidates_nil,
        evaluate_calls_nil, p1, p2, p3, p4]
  · simp only [hty, ne_eq, not_false_eq_true, if_true]
    simp [applied_candidates_append, evaluate_calls_append,
        applied_candidates_cons, evaluate_calls_cons, applied_candidates_nil,
        evaluate_calls_nil, p1, p2]

theorem state_after_trace (env : Env α) (ps : Bool) (cs : List (Option α))
    (s0 : LoopState α) (h0e : s0.error = none) (h0n : s0.n_evaluate = 0)
    (h0c : s0.best_combination = none) (k : Nat) (hok : ok_upto env cs k) :
    applied_candidates (state_after env ps cs s0 k).trace
      = applied_candidates s0.trace ++ (List.range k).filterMap (get_element cs)
    ∧ evaluate_calls (state_after env ps cs s0 k).trace
      = evaluate_calls s0.trace ++ List.range k := by
  induction k with
  | zero => simp [state_after_zero]
  | succ k ih =>
    obtain ⟨ha, hev⟩ := ih (fun i hi => hok i (by omega))
    obtain ⟨he, hn, -⟩ := loop_invariant env ps cs s0 h0e h0n h0c k
      (fun i hi => hok i (by omega))
    obtain ⟨⟨c, hc⟩, -⟩ := hok k (by omega)
    obtain ⟨t1, t2⟩ := loop_body_trace env ps cs k (state_after env ps cs s0 k) c hc
    rw [state_after_succ env ps cs s0 h0e, if_pos he, t1, t2, ha, hev, hn, List.range_succ,
      List.filterMap_append]
    simp [hc]

theorem filterMap_getElem?_range (l : List α) (v : Nat) (hv : v ≤ l.length) :
    (List.range v).filterMap (fun i => l[i]?) = l.take v := by
  induction v with
  | zero => simp
  | succ v ih =>
    rw [List.range_succ, List.filterMap_append, ih (by omega), List.take_succ]
    simp [List.getElem?_eq_getElem (show v < l.length by omega)]

theorem select_model_combinations (env : Env α) (ps : Bool) :
    (select_model env ps).combinations
      = build_combinations (env.get_combinations.map some) (combinations_indices env).length :=
  rfl

theorem select_model_length (env : Env α) (ps : Bool) :
    (select_model env ps).combinations.length = (combinations_indices env).length := by
  rw [select_model_combinations, build_combinations_length]

theorem trace_before_loop_quiet (env : Env α) (ps : Bool) :
    applied_candidates (trace_before_loop env ps) = []
    ∧ evaluate_calls (trace_before_loop env ps) = [] := by
  unfold trace_before_loop
  constructor
  · rw [applied_candidates_append, applied_candidates_build_trace]
    cases ps <;> simp [applied_candidates, printed]
  · rw [evaluate_calls_append, evaluate_calls_build_trace]
    cases ps <;> simp [evaluate_calls, printed]

theorem select_model_final (env : Env α) (ps : Bool) :
    ∃ t, (select_model env ps).final
      = state_after env ps (select_model env ps).combinations (initial_state env ps t)
          (select_model env ps).combinations.length
      ∧ applied_candidates t = [] ∧ evaluate_calls t = []
      ∧ t = trace_before_loop env ps :=
  ⟨_, rfl, (trace_before_loop_quiet env ps).1, (trace_before_loop_quiet env ps).2, rfl⟩

theorem select_model_returned_pointer (env : Env α) (ps : Bool) (x : Option α) :
    (select_model env ps).returned = Returned.pointer x
      ↔ (select_model env ps).final.error = none
        ∧ (select_model env ps).final.best_combination = x := by
  have h : (select_model env ps).returned =
      match (select_model env ps).final.error with
      | some failure => Returned.failure failure
      | none => Returned.pointer (select_model env ps).final.best_combination := rfl
  rw [h]
  cases (select_model env ps).final.error <;> simp

theorem select_model_returned_failure (env : Env α) (ps : Bool) (f : Failure) :
    (select_model env ps).returned = Returned.failure f
      ↔ (select_model env ps).final.error = some f := by
  have h : (select_model env ps).returned =
      match (select_model env ps).final.error with
      | some failure => Returned.failure failure
      | none => Returned.pointer (select_model env ps).final.best_combination := rfl
  rw [h]
  cases (select_model env ps).final.error <;> simp

/-- What is known of the candidate a run returns. -/
theorem select_model_winner (env : Env α) (ps : Bool) (c : α)
    (h : (select_model env ps).returned = Returned.pointer (some c)) :
    ok_upto env (select_model env ps).combinations (select_model env ps).combinations.length
    ∧ ∃ j < (select_model env ps).combinations.length,
        get_element (select_model env ps).combinations j = some c
        ∧ (select_model env ps).final.best_result = env.evaluate j
        ∧ improves env.get_evaluation_direction (env.evaluate j).mean (sentinel_mean env)
        ∧ (∀ i < j, improves env.get_evaluation_direction (env.evaluate j).mean
            (env.evaluate i).mean)
        ∧ (∀ i < (select_model env ps).combinations.length,
            ¬ improves env.get_evaluation_direction (env.evaluate i).mean
              (env.evaluate j).mean) := by
  obtain ⟨herr, hbest⟩ := (select_model_returned_pointer env ps _).mp h
  obtain ⟨t, hfin, -, -, -⟩ := select_model_final env ps
  obtain ⟨i0e, i0n, i0c, i0m, -⟩ := initial_state_facts env ps t
  rw [hfin] at herr hbest
  have hok := ok_upto_of_no_error env ps _ _ i0e i0n i0c _ herr
  obtain ⟨-, -, -, hle, -, hsome⟩ := loop_invariant env ps _ _ i0e i0n i0c _ hok
  obtain ⟨j, hj, r1, r2, r3, r4⟩ := hsome c hbest
  refine ⟨hok, j, hj, r1, by rw [hfin]; exact r2, ?_, ?_, ?_⟩
  · rw [i0m] at r3
    exact (rank_lt_iff _ _ _).mp r3
  · intro i hi
    exact (rank_lt_iff _ _ _).mp (r4 i hi)
  · intro i hi
    have := hle i hi
    rw [r2] at this
    exact (rank_le_iff _ _ _).mp this

theorem select_model_get_element (env : Env α) (ps : Bool) (i : Nat)
    (hi : i < (combinations_indices env).length) :
    get_element (select_model env ps).combinations i = env.get_combinations[i]? := by
  rw [select_model_combinations, get_element_build _ _ _ hi, get_element_map_some]

theorem select_model_ok_upto (env : Env α) (ps : Bool)
    (hle : (combinations_indices env).length ≤ env.get_combinations.length)
    (k : Nat) (hk : k ≤ (combinations_indices env).length) (hwf : well_formed env k) :
    ok_upto env (select_model env ps).combinations k := by
  intro i hi
  refine ⟨?_, hwf i hi⟩
  rw [select_model_get_element env ps i (by omega)]
  exact ⟨env.get_combinations[i], List.getElem?_eq_getElem (by omega)⟩

theorem select_model_returns_some (env : Env α) (ps : Bool)
    (hle : (combinations_indices env).length ≤ env.get_combinations.length)
    (hwf : well_formed env (combinations_indices env).length)
    (hbeat : ∃ i < (combinations_indices env).length,
      improves env.get_evaluation_direction (env.evaluate i).mean (sentinel_mean env)) :
    ∃ c, (select_model env ps).returned = Returned.pointer (some c) := by
  obtain ⟨t, hfin, -, -, -⟩ := select_model_final env ps
  obtain ⟨i0e, i0n, i0c, i0m, -⟩ := initial_state_facts env ps t
  have hok := select_model_ok_upto env ps hle _ (le_refl _) hwf
  rw [← select_model_length env ps] at hok hbeat
  obtain ⟨he, -, -, hall, hnone, -⟩ := loop_invariant env ps _ _ i0e i0n i0c _ hok
  rw [← hfin] at he hall hnone
  cases hb : (select_model env ps).final.best_combination with
  | none =>
    exfalso
    obtain ⟨i, hi, himp⟩ := hbeat
    have h1 := hall i hi
    rw [hnone hb, i0m] at h1
    exact (rank_le_iff _ _ _).mp h1 himp
  | some c => exact ⟨c, (select_model_returned_pointer env ps _).mpr ⟨he, hb⟩⟩

theorem build_combinations_all (l : List α) :
    build_combinations (l.map some) l.length = l.map some := by
  apply List.ext_getElem?
  intro i
  by_cases hi : i < l.length
  · simp [build_combinations, List.getElem?_map, List.getElem?_range hi,
      get_element_map_some, List.getElem?_eq_getElem hi]
  · rw [List.getElem?_eq_none (by simp [build_combinations]; omega),
      List.getElem?_eq_none (by simp; omega)]

theorem select_model_trace_ok (env : Env α) (ps : Bool)
    (hle : (combinations_indices env).length ≤ env.get_combinations.length)
    (hwf : well_formed env (combinations_indices env).length) :
    (select_model env ps).final.error = none
    ∧ applied_candidates (select_model env ps).final.trace
        = env.get_combinations.take (combinations_indices env).length
    ∧ evaluate_calls (select_model env ps).final.trace
        = List.range (combinations_indices env).length := by
  obtain ⟨t, hfin, ht1, ht2, -⟩ := select_model_final env ps
  obtain ⟨i0e, i0n, i0c, -, -⟩ := initial_state_facts env ps t
  have hok := select_model_ok_upto env ps hle _ (le_refl _) hwf
  rw [← select_model_length env ps] at hok
  obtain ⟨he, -⟩ := loop_invariant env ps _ _ i0e i0n i0c _ hok
  obtain ⟨ha, hev⟩ := state_after_trace env ps _ _ i0e i0n i0c _ hok
  rw [← hfin] at he ha hev
  rw [(initial_state_trace env ps t).1, ht1, List.nil_append] at ha
  rw [(initial_state_trace env ps t).2, ht2, List.nil_append] at hev
  refine ⟨he, ?_, by rw [hev, select_model_length]⟩
  rw [ha, select_model_length, ← filterMap_getElem?_range _ _ hle]
  apply List.filterMap_congr
  intro i hi
  exact select_model_get_element env ps i (List.mem_range.mp hi)

/-- The run whose first malformed outcome is the one of iteration `j`. -/
theorem select_model_first_malformed (env : Env α) (ps : Bool)
    (hle : (combinations_indices env).length ≤ env.get_combinations.length)
    (j : Nat) (hj : j < (combinations_indices env).length)
    (hbad : (env.evaluate j).result_type ≠ EEvaluationResultType.CROSSVALIDATION_RESULT)
    (hwf : well_formed env j) :
    (select_model env ps).final.error = some Failure.unexpected_result_type
    ∧ applied_candidates (select_model env ps).final.trace
        = env.get_combinations.take (j + 1)
    ∧ evaluate_calls (select_model env ps).final.trace = List.range (j + 1)
    ∧ (select_model env ps).final.best_result
        = (state_after env ps (select_model env ps).combinations
            (initial_state env ps (trace_before_loop env ps)) j).best_result
    ∧ (select_model env ps).final.best_combination
        = (state_after env ps (select_model env ps).combinations
            (initial_state env ps (trace_before_loop env ps)) j).best_combination := by
  obtain ⟨t, hfin, ht1, ht2, htt⟩ := select_model_final env ps
  obtain ⟨i0e, i0n, i0c, -, -⟩ := initial_state_facts env ps t
  have hok := select_model_ok_upto env ps hle j (by omega) hwf
  obtain ⟨he, hn, -⟩ := loop_invariant env ps _ _ i0e i0n i0c _ hok
  obtain ⟨ha, hev⟩ := state_after_trace env ps _ _ i0e i0n i0c _ hok
  have hc : get_element (select_model env ps).combinations j
      = some (env.get_combinations[j]) := by
    rw [select_model_get_element env ps j hj]
    exact List.getElem?_eq_getElem (by omega)
  have hstep := state_after_succ env ps (select_model env ps).combinations _ i0e j
  rw [if_pos he] at hstep
  rw [← hn] at hbad
  obtain ⟨e1, e2, e3, e4⟩ := loop_body_error env ps _ j _ _ hc hbad
  obtain ⟨t1, t2⟩ := loop_body_trace env ps _ j
    (state_after env ps (select_model env ps).combinations (initial_state env ps t) j) _ hc
  have hstuck := state_after_stuck env ps (select_model env ps).combinations _ i0e (j + 1)
    (by rw [hstep, e1]; simp) (select_model env ps).combinations.length
    (by rw [select_model_length]; omega)
  rw [← hfin, hstep] at hstuck
  rw [hstuck, ← htt]
  refine ⟨e1, ?_, ?_, e4, e3⟩
  · rw [t1, ha, (initial_state_trace env ps t).1, ht1, List.nil_append,
      ← filterMap_getElem?_range _ (j + 1) (by omega), List.range_succ, List.filterMap_append]
    congr 1
    · apply List.filterMap_congr
      intro i hi
      exact select_model_get_element env ps i (by have := List.mem_range.mp hi; omega)
    · simp [List.getElem?_eq_getElem (show j < env.get_combinations.length by omega)]
  · rw [t2, hev, (initial_state_trace env ps t).2, ht2, List.nil_append, hn, List.range_succ]

theorem not_well_formed_first (env : Env α) (v : Nat) (h : ¬ well_formed env v) :
    ∃ j < v, (env.evaluate j).result_type ≠ EEvaluationResultType.CROSSVALIDATION_RESULT
      ∧ well_formed env j := by
  induction v with
  | zero => exact absurd (fun i hi => absurd hi (Nat.not_lt_zero i)) h
  | succ v ih =>
    by_cases hv : well_formed env v
    · refine ⟨v, by omega, ?_, hv⟩
      intro hty
      apply h
      intro i hi
      rcases Nat.eq_or_lt_of_le (Nat.le_of_lt_succ hi) with h1 | h1
      · rw [h1]; exact hty
      · exact hv i h1
    · obtain ⟨j, hj, r⟩ := ih hv
      exact ⟨j, by omega, r⟩

theorem net_references_append [DecidableEq α] (c : α) (t u : List (Event α)) :
    net_references c (t ++ u) = net_references c t + net_references c u := by
  simp only [net_references, List.count_append]
  push_cast
  ring

theorem net_references_nil [DecidableEq α] (c : α) :
    net_references c ([] : List (Event α)) = 0 := by
  simp [net_references]

theorem net_references_acquired [DecidableEq α] (c : α) (x : Option α) :
    net_references c (acquired x) = if x = some c then 1 else 0 := by
  cases x with
  | none => simp [acquired, net_references]
  | some y =>
    by_cases h : y = c
    · simp [acquired, net_references, h]
    · simp [acquired, net_references, h, List.count_singleton]

theorem net_references_unref [DecidableEq α] (c : α) (x : Option α) :
    net_references c (SG_UNREF x) = if x = some c then -1 else 0 := by
  cases x with
  | none => simp [SG_UNREF, net_references]
  | some y =>
    by_cases h : y = c
    · simp [SG_UNREF, net_references, h]
    · simp [SG_UNREF, net_references, h, List.count_singleton]

theorem net_references_printed [DecidableEq α] (c : α) (ps : Bool) (es : List (Event α))
    (h : net_references c es = 0) : net_references c (printed ps es) = 0 := by
  cases ps <;> simp [printed, h, net_references_nil]

theorem loop_body_net_references [DecidableEq α] (env : Env α) (ps : Bool)
    (cs : List (Option α)) (i : Nat) (s : LoopState α) (x : α)
    (hc : get_element cs i = some x)
    (hty : (env.evaluate s.n_evaluate).result_type
      = EEvaluationResultType.CROSSVALIDATION_RESULT) (c : α) :
    net_references c (loop_body env ps cs i s).trace
        - (if (loop_body env ps cs i s).best_combination = some c then 1 else 0)
      = net_references c s.trace - (if s.best_combination = some c then 1 else 0) := by
  have p1 : net_references c (printed ps
      [Event.SG_PRINT PrintMsg.trying_combination, Event.print_tree x]) = 0 :=
    net_references_printed _ _ _ (by simp [net_references])
  have p3 : ∀ r, net_references c (printed ps [(Event.print_result r : Event α)]) = 0 :=
    fun r => net_references_printed _ _ _ (by simp [net_references])
  have q1 : net_references c [Event.get_element x] = if some x = some c then 1 else 0 :=
    net_references_acquired c (some x)
  have q2 : net_references c [Event.SG_UNREF x] = if some x = some c then -1 else 0 :=
    net_references_unref c (some x)
  have q3 : net_references c
      [Event.apply_to_modsel_parameter x, (Event.evaluate s.n_evaluate : Event α)] = 0 := by
    simp [net_references]
  unfold loop_body
  simp only [hc, hty, ne_eq, not_true_eq_false, if_false]
  rcases hd : env.get_evaluation_direction <;> simp only [] <;> split_ifs <;>
    simp only [net_references_append, net_references_acquired, net_references_unref,
      p1, p3, q1, q2, q3] <;>
    split_ifs <;> simp_all <;> ring

theorem state_after_net_references [DecidableEq α] (env : Env α) (ps : Bool)
    (cs : List (Option α)) (s0 : LoopState α) (h0e : s0.error = none)
    (h0n : s0.n_evaluate = 0) (h0c : s0.best_combination = none) (k : Nat)
    (hok : ok_upto env cs k) (c : α) :
    net_references c (state_after env ps cs s0 k).trace
      = net_references c s0.trace
        + (if (state_after env ps cs s0 k).best_combination = some c then 1 else 0) := by
  induction k with
  | zero => simp [state_after_zero, h0c]
  | succ k ih =>
    have ih2 := ih (fun i hi => hok i (by omega))
    obtain ⟨he, hn, -⟩ := loop_invariant env ps cs s0 h0e h0n h0c k
      (fun i hi => hok i (by omega))
    obtain ⟨⟨x, hx⟩, hty⟩ := hok k (by omega)
    rw [← hn] at hty
    have := loop_body_net_references env ps cs k _ x hx hty c
    rw [state_after_succ env ps cs s0 h0e, if_pos he]
    linarith

theorem net_references_build_trace [DecidableEq α] (l : List α) (v : Nat)
    (hv : v ≤ l.length) (c : α) :
    net_references c (build_trace (l.map some) v) = (l.take v).count c := by
  unfold build_trace
  induction v with
  | zero => simp [net_references]
  | succ v ih =>
    rw [List.range_succ, List.flatMap_append, net_references_append, ih (by omega),
      List.take_succ, List.count_append]
    simp only [List.flatMap_cons, List.flatMap_nil, List.append_nil,
      net_references_acquired, get_element_map_some,
      List.getElem?_eq_getElem (show v < l.length by omega)]
    by_cases h : l[v] = c
    · simp [h]
    · simp [h, List.count_singleton]

theorem select_model_returns_null_of_no_improvement (env : Env α) (ps : Bool)
    (hle : (combinations_indices env).length ≤ env.get_combinations.length)
    (hwf : well_formed env (combinations_indices env).length)
    (hno : ∀ i < (combinations_indices env).length,
      ¬ improves env.get_evaluation_direction (env.evaluate i).mean (sentinel_mean env)) :
    (select_model env ps).returned = Returned.pointer none := by
  obtain ⟨he, -⟩ := select_model_trace_ok env ps hle hwf
  cases hb : (select_model env ps).final.best_combination with
  | none => exact (select_model_returned_pointer env ps none).mpr ⟨he, hb⟩
  | some c =>
    exfalso
    have hret := (select_model_returned_pointer env ps (some c)).mpr ⟨he, hb⟩
    obtain ⟨-, j, hj, -, -, r3, -⟩ := select_model_winner env ps c hret
    rw [select_model_length] at hj
    exact hno j hj r3

theorem without_prints_append (t u : List (Event α)) :
    without_prints (t ++ u) = without_prints t ++ without_prints u := by
  simp [without_prints]

theorem without_prints_nil : without_prints ([] : List (Event α)) = [] := rfl

theorem without_prints_cons (e : Event α) (t : List (Event α)) :
    without_prints (e :: t)
      = if is_print e then without_prints t else e :: without_prints t := by
  cases h : is_print e <;> simp [without_prints, h]

theorem without_prints_acquired (c : Option α) :
    without_prints (acquired c) = acquired c := by
  cases c <;> simp [without_prints, acquired, is_print]

theorem without_prints_unref (c : Option α) :
    without_prints (SG_UNREF c) = SG_UNREF c := by
  cases c <;> simp [without_prints, SG_UNREF, is_print]

theorem without_prints_build_trace (a : List (Option α)) (v : Nat) :
    without_prints (build_trace a v) = build_trace a v := by
  unfold build_trace
  induction List.range v with
  | nil => simp [without_prints]
  | cons i l ih =>
    rw [List.flatMap_cons, without_prints_append, without_prints_acquired, ih]

theorem applied_candidates_without_prints (t : List (Event α)) :
    applied_candidates (without_prints t) = applied_candidates t := by
  induction t with
  | nil => rfl
  | cons e t ih =>
    cases e <;>
      simp [without_prints, is_print, applied_candidates_cons] <;>
      simpa [without_prints] using ih

theorem evaluate_calls_without_prints (t : List (Event α)) :
    evaluate_calls (without_prints t) = evaluate_calls t := by
  induction t with
  | nil => rfl
  | cons e t ih =>
    cases e <;>
      simp [without_prints, is_print, evaluate_calls_cons] <;>
      simpa [without_prints] using ih

theorem loop_body_silence (env : Env α) (ps : Bool) (cs : List (Option α)) (i : Nat)
    (s : LoopState α) :
    loop_body env false cs i (silence s) = silence (loop_body env ps cs i s) := by
  unfold loop_body silence
  cases hc : get_element cs i with
  | none => rfl
  | some c =>
    simp only []
    by_cases hty : (env.evaluate s.n_evaluate).result_type
        = EEvaluationResultType.CROSSVALIDATION_RESULT
    · simp only [hty, ne_eq, not_true_eq_false, if_false]
      rcases hd : env.get_evaluation_direction <;> simp only [] <;> split_ifs <;>
        cases ps <;>
        simp [without_prints_append, without_prints_unref, without_prints_acquired, printed,
          without_prints_cons, without_prints_nil, is_print]
    · simp only [hty, ne_eq, not_false_eq_true, if_true]
      cases ps <;>
        simp [without_prints_append, printed, without_prints_cons, without_prints_nil,
          is_print]

theorem main_loop_silence (env : Env α) (ps : Bool) (cs : List (Option α))
    (is : List Nat) (s : LoopState α) :
    main_loop env false cs is (silence s) = silence (main_loop env ps cs is s) := by
  induction is generalizing s with
  | nil => rfl
  | cons i rest ih =>
    simp only [main_loop, loop_body_silence env ps cs i s]
    have he : (silence (loop_body env ps cs i s)).error = (loop_body env ps cs i s).error :=
      rfl
    rw [he]
    cases h : (loop_body env ps cs i s).error with
    | none => exact ih _
    | some f => rfl

theorem initial_state_silence (env : Env α) (ps : Bool) (t : List (Event α)) :
    silence (initial_state env ps t) = initial_state env false (without_prints t) := by
  unfold initial_state silence
  cases env.get_evaluation_direction <;> cases ps <;>
    simp [without_prints_append, printed, without_prints, is_print]

theorem trace_before_loop_silence (env : Env α) (ps : Bool) :
    without_prints (trace_before_loop env ps) = trace_before_loop env false := by
  unfold trace_before_loop
  rw [without_prints_append, without_prints_build_trace]
  cases ps <;> simp [printed, without_prints, is_print]

theorem select_model_silence (env : Env α) (ps : Bool) :
    (select_model env false).final = silence (select_model env ps).final := by
  show main_loop env false _ _ _ = silence (main_loop env ps _ _ _)
  rw [← main_loop_silence, initial_state_silence, trace_before_loop_silence]

theorem loop_body_env_congr (env env2 : Env α) (ps : Bool) (cs : List (Option α)) (i : Nat)
    (s : LoopState α) (hd : env2.get_evaluation_direction = env.get_evaluation_direction)
    (he : env2.evaluate = env.evaluate) :
    loop_body env2 ps cs i s = loop_body env ps cs i s := by
  unfold loop_body
  rw [hd, he]

theorem main_loop_env_congr (env env2 : Env α) (ps : Bool) (cs : List (Option α))
    (is : List Nat) (s : LoopState α)
    (hd : env2.get_evaluation_direction = env.get_evaluation_direction)
    (he : env2.evaluate = env.evaluate) :
    main_loop env2 ps cs is s = main_loop env ps cs is s := by
  induction is generalizing s with
  | nil => rfl
  | cons i rest ih =>
    simp only [main_loop, loop_body_env_congr env env2 ps cs i s hd he]
    cases (loop_body env ps cs i s).error with
    | none => exact ih _
    | some f => rfl

theorem build_combinations_eq (l : List α) (v : Nat) :
    build_combinations (l.map some) v = (List.range v).map (fun i => l[i]?) := by
  unfold build_combinations
  apply List.map_congr_left
  intro i _
  exact get_element_map_some l i

theorem build_combinations_take (l : List α) (v : Nat) (hv : v ≤ l.length) :
    build_combinations (l.map some) v = (l.take v).map some := by
  apply List.ext_getElem?
  intro i
  by_cases hi : i < v
  · simp [build_combinations, List.getElem?_map, List.getElem?_range hi,
      get_element_map_some, List.getElem?_take_of_lt hi,
      List.getElem?_eq_getElem (show i < l.length by omega)]
  · rw [List.getElem?_eq_none (by simp [build_combinations]; omega),
      List.getElem?_eq_none (by simp; omega)]

theorem loop_state_final (env : Env α) (ps : Bool) :
    (select_model env ps).final = loop_state env ps (select_model env ps).combinations.length :=
  rfl

theorem loop_state_invariant (env : Env α) (ps : Bool) (k : Nat)
    (hk : k ≤ (combinations_indices env).length)
    (hle : (combinations_indices env).length ≤ env.get_combinations.length)
    (hwf : well_formed env k) :
    (loop_state env ps k).error = none
    ∧ (loop_state env ps k).n_evaluate = k
    ∧ rank env.get_evaluation_direction (sentinel_mean env)
        ≤ rank env.get_evaluation_direction (loop_state env ps k).best_result.mean
    ∧ (∀ i < k, rank env.get_evaluation_direction (env.evaluate i).mean
        ≤ rank env.get_evaluation_direction (loop_state env ps k).best_result.mean)
    ∧ ((loop_state env ps k).best_combination = none →
        (loop_state env ps k).best_result.mean = sentinel_mean env)
    ∧ (∀ c, (loop_state env ps k).best_combination = some c →
        ∃ j < k, get_element (select_model env ps).combinations j = some c
          ∧ (loop_state env ps k).best_result = env.evaluate j
          ∧ rank env.get_evaluation_direction (sentinel_mean env)
              < rank env.get_evaluation_direction (env.evaluate j).mean
          ∧ ∀ i < j, rank env.get_evaluation_direction (env.evaluate i).mean
              < rank env.get_evaluation_direction (env.evaluate j).mean) := by
  obtain ⟨i0e, i0n, i0c, i0m, -⟩ := initial_state_facts env ps (trace_before_loop env ps)
  have hok := select_model_ok_upto env ps hle k hk hwf
  obtain ⟨h1, h2, h3, h4, h5, h6⟩ := loop_invariant env ps _ _ i0e i0n i0c k hok
  rw [i0m] at h3
  refine ⟨h1, h2, h3, h4, ?_, ?_⟩
  · intro hn
    show (state_after _ _ _ _ _).best_result.mean = _
    rw [h5 hn, i0m]
  · intro c hc
    obtain ⟨j, hj, r1, r2, r3, r4⟩ := h6 c hc
    rw [i0m] at r3
    exact ⟨j, hj, r1, r2, r3, r4⟩

theorem loop_state_step (env : Env α) (ps : Bool) (k : Nat)
    (hk : k < (combinations_indices env).length)
    (hle : (combinations_indices env).length ≤ env.get_combinations.length)
    (hwf : well_formed env (k + 1)) :
    (improves env.get_evaluation_direction (env.evaluate k).mean
        (loop_state env ps k).best_result.mean →
      (loop_state env ps (k + 1)).best_result = env.evaluate k
      ∧ (loop_state env ps (k + 1)).best_combination
          = get_element (select_model env ps).combinations k)
    ∧ (¬ improves env.get_evaluation_direction (env.evaluate k).mean
        (loop_state env ps k).best_result.mean →
      (loop_state env ps (k + 1)).best_result = (loop_state env ps k).best_result
      ∧ (loop_state env ps (k + 1)).best_combination
          = (loop_state env ps k).best_combination) := by
  obtain ⟨i0e, -⟩ := initial_state_facts env ps (trace_before_loop env ps)
  obtain ⟨he, hn, -⟩ := loop_state_invariant env ps k (by omega) hle
    (fun i hi => hwf i (by omega))
  obtain ⟨⟨c, hc⟩, hty⟩ := select_model_ok_upto env ps hle (k + 1) (by omega) hwf k
    (by omega)
  have hstep : loop_state env ps (k + 1)
      = loop_body env ps (select_model env ps).combinations k (loop_state env ps k) := by
    have := state_after_succ env ps (select_model env ps).combinations
      (initial_state env ps (trace_before_loop env ps)) i0e k
    have he2 : (state_after env ps (select_model env ps).combinations
        (initial_state env ps (trace_before_loop env ps)) k).error = none := he
    rw [if_pos he2] at this
    exact this
  rw [← hn] at hty
  obtain ⟨-, -, e3, e4⟩ := loop_body_ok env ps _ k (loop_state env ps k) c hc hty
  rw [hn] at e3 e4
  rw [hstep, e3, e4, hc]
  constructor
  · intro hb
    have hr := (rank_lt_iff _ _ _).mpr hb
    rw [if_pos hr, if_pos hr]
    exact ⟨rfl, rfl⟩
  · intro hb
    have hr : ¬ rank env.get_evaluation_direction (loop_state env ps k).best_result.mean
        < rank env.get_evaluation_direction (env.evaluate k).mean :=
      fun h => hb ((rank_lt_iff _ _ _).mp h)
    rw [if_neg hr, if_neg hr]
    exact ⟨rfl, rfl⟩

theorem select_model_never_null (env : Env α) (ps : Bool)
    (hle : (combinations_indices env).length ≤ env.get_combinations.length) :
    (select_model env ps).final.error ≠ some Failure.null_dereference := by
  by_cases hwf : well_formed env (combinations_indices env).length
  · rw [(select_model_trace_ok env ps hle hwf).1]
    simp
  · obtain ⟨j, hj, hbad, hwfj⟩ := not_well_formed_first env _ hwf
    rw [(select_model_first_malformed env ps hle j hj hbad hwfj).1]
    simp

theorem applications_append_cons (t : List (Event α)) (e : Event α) (u : List (Event α))
    (he : ∀ k, e ≠ Event.evaluate k) :
    applications (t ++ e :: u) = applications t ++ applications (e :: u) := by
  induction t with
  | nil => rfl
  | cons x t ih =>
    cases x with
    | apply_to_modsel_parameter c =>
      have hn : next_evaluate (t ++ e :: u) = next_evaluate t := by
        cases t with
        | nil =>
          cases e <;> first | rfl | exact absurd rfl (he _)
        | cons y t2 => cases y <;> rfl
      show (c, next_evaluate (t ++ e :: u)) :: applications (t ++ e :: u)
        = (c, next_evaluate t) :: (applications t ++ applications (e :: u))
      rw [hn, ih]
    | SG_PRINT m => simpa [applications] using ih
    | print_tree c => simpa [applications] using ih
    | print_result r => simpa [applications] using ih
    | get_element c => simpa [applications] using ih
    | SG_UNREF c => simpa [applications] using ih
    | evaluate k => simpa [applications] using ih

theorem applications_eq_nil (u : List (Event α)) (h : applied_candidates u = []) :
    applications u = [] := by
  induction u with
  | nil => rfl
  | cons x u ih =>
    rw [applied_candidates_cons] at h
    cases x with
    | apply_to_modsel_parameter c => simp at h
    | SG_PRINT m => simpa [applications] using ih (by simpa using h)
    | print_tree c => simpa [applications] using ih (by simpa using h)
    | print_result r => simpa [applications] using ih (by simpa using h)
    | get_element c => simpa [applications] using ih (by simpa using h)
    | SG_UNREF c => simpa [applications] using ih (by simpa using h)
    | evaluate k => simpa [applications] using ih (by simpa using h)

theorem applications_iteration (t P Y : List (Event α)) (c : α) (n : Nat)
    (hP : applied_candidates P = []) (hY : applied_candidates Y = []) :
    applications (t ++ Event.get_element c
        :: (P ++ Event.apply_to_modsel_parameter c :: Event.evaluate n :: Y))
      = applications t ++ [(c, some n)] := by
  rw [applications_append_cons t _ _ (fun k h => Event.noConfusion h)]
  congr 1
  show applications (P ++ Event.apply_to_modsel_parameter c :: Event.evaluate n :: Y) = _
  rw [applications_append_cons P _ _ (fun k h => Event.noConfusion h),
    applications_eq_nil P hP]
  show (c, next_evaluate (Event.evaluate n :: Y)) :: applications (Event.evaluate n :: Y) = _
  show (c, some n) :: applications Y = _
  rw [applications_eq_nil Y hY]

theorem loop_body_trace_shape (env : Env α) (ps : Bool) (cs : List (Option α)) (i : Nat)
    (s : LoopState α) (c : α) (hc : get_element cs i = some c) :
    ∃ P Y, (loop_body env ps cs i s).trace
        = s.trace ++ Event.get_element c
          :: (P ++ Event.apply_to_modsel_parameter c :: Event.evaluate s.n_evaluate :: Y)
      ∧ applied_candidates P = [] ∧ applied_candidates Y = [] := by
  have p1 : applied_candidates (printed ps
      [Event.SG_PRINT PrintMsg.trying_combination, Event.print_tree c]) = [] :=
    applied_candidates_printed _ _ (by simp [applied_candidates_cons, applied_candidates_nil])
  have p3 : ∀ r, applied_candidates (printed ps [(Event.print_result r : Event α)]) = [] :=
    fun r => applied_candidates_printed _ _
      (by simp [applied_candidates_cons, applied_candidates_nil])
  unfold loop_body
  simp only [hc]
  by_cases hty : (env.evaluate s.n_evaluate).result_type
      = EEvaluationResultType.CROSSVALIDATION_RESULT
  · simp only [hty, ne_eq, not_true_eq_false, if_false]
    have hY1 : applied_candidates (printed ps [Event.print_result (env.evaluate s.n_evaluate)]
        ++ SG_UNREF s.best_combination ++ acquired (some c) ++ [Event.SG_UNREF c]) = [] := by
      simp [applied_candidates_append, applied_candidates_unref,
        applied_candidates_acquired, applied_candidates_cons, applied_candidates_nil, p3]
    have hY2 : applied_candidates (printed ps [Event.print_result (env.evaluate s.n_evaluate)]
        ++ acquired (some c) ++ SG_UNREF (some c) ++ [Event.SG_UNREF c]) = [] := by
      simp [applied_candidates_append, applied_candidates_unref,
        applied_candidates_acquired, applied_candidates_cons, applied_candidates_nil, p3]
    rcases hd : env.get_evaluation_direction <;> simp only [] <;> split_ifs
    · exact ⟨_, _, by simp [List.append_assoc], p1, hY1⟩
    · exact ⟨_, _, by simp [List.append_assoc], p1, hY2⟩
    · exact ⟨_, _, by simp [List.append_assoc], p1, hY1⟩
    · exact ⟨_, _, by simp [List.append_assoc], p1, hY2⟩
  · simp only [hty, ne_eq, not_false_eq_true, if_true]
    exact ⟨_, [], by simp [List.append_assoc], p1, rfl⟩

theorem loop_body_applications (env : Env α) (ps : Bool) (cs : List (Option α)) (i : Nat)
    (s : LoopState α) (c : α) (hc : get_element cs i = some c) :
    applications (loop_body env ps cs i s).trace
      = applications s.trace ++ [(c, some s.n_evaluate)] := by
  obtain ⟨P, Y, h, hP, hY⟩ := loop_body_trace_shape env ps cs i s c hc
  rw [h, applications_iteration _ _ _ _ _ hP hY]

theorem filterMap_get_element_length (cs : List (Option α)) (k : Nat)
    (h : ∀ i < k, ∃ x, get_element cs i = some x) :
    ((List.range k).filterMap (get_element cs)).length = k := by
  induction k with
  | zero => rfl
  | succ k ih =>
    obtain ⟨x, hx⟩ := h k (by omega)
    rw [List.range_succ, List.filterMap_append, List.length_append,
      ih (fun i hi => h i (by omega))]
    simp [hx]

theorem state_after_applications (env : Env α) (ps : Bool) (cs : List (Option α))
    (s0 : LoopState α) (h0e : s0.error = none) (h0n : s0.n_evaluate = 0)
    (h0c : s0.best_combination = none) (h0a : applied_candidates s0.trace = [])
    (h0v : evaluate_calls s0.trace = []) (k : Nat) (hok : ok_upto env cs k) :
    applications (state_after env ps cs s0 k).trace
      = List.zip (applied_candidates (state_after env ps cs s0 k).trace)
          ((evaluate_calls (state_after env ps cs s0 k).trace).map some) := by
  induction k with
  | zero => simp [state_after_zero, h0a, h0v, applications_eq_nil _ h0a]
  | succ k ih =>
    have ih2 := ih (fun i hi => hok i (by omega))
    obtain ⟨ha, hev⟩ := state_after_trace env ps cs s0 h0e h0n h0c k
      (fun i hi => hok i (by omega))
    obtain ⟨he, hn, -⟩ := loop_invariant env ps cs s0 h0e h0n h0c k
      (fun i hi => hok i (by omega))
    obtain ⟨⟨c, hc⟩, -⟩ := hok k (by omega)
    obtain ⟨t1, t2⟩ := loop_body_trace env ps cs k (state_after env ps cs s0 k) c hc
    have hlen : (applied_candidates (state_after env ps cs s0 k).trace).length
        = ((evaluate_calls (state_after env ps cs s0 k).trace).map some).length := by
      rw [ha, hev, h0a, h0v]
      simp [filterMap_get_element_length cs k (fun i hi => (hok i (by omega)).1)]
    rw [state_after_succ env ps cs s0 h0e, if_pos he,
      loop_body_applications env ps cs k _ c hc, t1, t2, ih2, List.map_append,
      List.zip_append hlen]
    rfl

theorem loop_body_mirror (env : Env α) (cs : List (Option α)) (i : Nat) (s : LoopState α) :
    loop_body (mirror env) false cs i (mirror_state s)
      = mirror_state (loop_body env false cs i s) := by
  unfold loop_body mirror_state
  cases hc : get_element cs i with
  | none => rfl
  | some c =>
    simp only []
    have hty : ((mirror env).evaluate s.n_evaluate).result_type
        = (env.evaluate s.n_evaluate).result_type := rfl
    have hm : ((mirror env).evaluate s.n_evaluate).mean
        = -(env.evaluate s.n_evaluate).mean := rfl
    have hn : (negated s.best_result).mean = -s.best_result.mean := rfl
    have hev : (mirror env).evaluate s.n_evaluate = negated (env.evaluate s.n_evaluate) := rfl
    have hdm : (mirror env).get_evaluation_direction = flipped env.get_evaluation_direction :=
      rfl
    rw [hty, hdm]
    by_cases hbad : (env.evaluate s.n_evaluate).result_type
        = EEvaluationResultType.CROSSVALIDATION_RESULT
    · simp only [hbad, ne_eq, not_true_eq_false, if_false]
      rcases hd : env.get_evaluation_direction <;>
        simp only [flipped, hm, hn, gt_iff_lt, neg_lt_neg_iff] <;>
        split_ifs <;> simp [printed, hev]
    · simp only [hbad, ne_eq, not_false_eq_true, if_true]

theorem main_loop_mirror (env : Env α) (cs : List (Option α)) (is : List Nat)
    (s : LoopState α) :
    main_loop (mirror env) false cs is (mirror_state s)
      = mirror_state (main_loop env false cs is s) := by
  induction is generalizing s with
  | nil => rfl
  | cons i rest ih =>
    simp only [main_loop, loop_body_mirror env cs i s]
    have he : (mirror_state (loop_body env false cs i s)).error
        = (loop_body env false cs i s).error := rfl
    rw [he]
    cases h : (loop_body env false cs i s).error with
    | none => exact ih _
    | some f => rfl

theorem initial_state_mirror (env : Env α) (t : List (Event α)) :
    initial_state (mirror env) false t = mirror_state (initial_state env false t) := by
  unfold initial_state mirror_state
  have hdm : (mirror env).get_evaluation_direction = flipped env.get_evaluation_direction :=
    rfl
  rw [hdm]
  rcases hd : env.get_evaluation_direction <;> simp [flipped, negated, mirror, printed]

theorem loop_state_mirror (env : Env α) (k : Nat) :
    loop_state (mirror env) false k = mirror_state (loop_state env false k) := by
  show main_loop (mirror env) false _ _ (initial_state (mirror env) false _)
    = mirror_state (main_loop env false _ _ _)
  rw [← main_loop_mirror, initial_state_mirror]
  rfl

theorem loop_state_silence (env : Env α) (ps : Bool) (k : Nat) :
    loop_state env false k = silence (loop_state env ps k) := by
  show main_loop env false _ _ _ = silence (main_loop env ps _ _ _)
  rw [← main_loop_silence, initial_state_silence, trace_before_loop_silence]
  rfl

theorem releases_without_prints (t : List (Event α)) :
    releases (without_prints t) = releases t := by
  induction t with
  | nil => rfl
  | cons e t ih =>
    cases e <;>
      simp [without_prints_cons, is_print, releases] <;>
      simpa [releases] using ih

theorem acquisitions_without_prints (t : List (Event α)) :
    acquisitions (without_prints t) = acquisitions t := by
  induction t with
  | nil => rfl
  | cons e t ih =>
    cases e <;>
      simp [without_prints_cons, is_print, acquisitions] <;>
      simpa [acquisitions] using ih

end Lemmas

/-! ## The claims -/

section Claims

variable {α : Type}

/-- C1. Whenever `select_model` returns a candidate, that candidate sits at a position `j`
of the working subset whose outcome is `best_result`, and the mean of that outcome is the
maximum of the means of the outcomes of the working subset under `ED_MAXIMIZE` and their
minimum under `ED_MINIMIZE`.  A candidate is returned whenever the index vector is no
longer than the space, all outcomes are cross-validation results and some mean strictly
improves on the sentinel. -/
theorem select_model_returns_optimum (env : Env α) (print_state : Bool) :
    (∀ c, (select_model env print_state).returned = Returned.pointer (some c) →
      ∃ j < (select_model env print_state).combinations.length,
        get_element (select_model env print_state).combinations j = some c
        ∧ (select_model env print_state).final.best_result = env.evaluate j
        ∧ (env.get_evaluation_direction = EEvaluationDirection.ED_MAXIMIZE →
            (outcome_means env (select_model env print_state).combinations.length).maximum
              = ((env.evaluate j).mean : WithBot ℚ))
        ∧ (env.get_evaluation_direction = EEvaluationDirection.ED_MINIMIZE →
            (outcome_means env (select_model env print_state).combinations.length).minimum
              = ((env.evaluate j).mean : WithTop ℚ)))
    ∧ ((combinations_indices env).length ≤ env.get_combinations.length →
        well_formed env (combinations_indices env).length →
        (∃ i < (combinations_indices env).length,
          improves env.get_evaluation_direction (env.evaluate i).mean (sentinel_mean env)) →
        ∃ c, (select_model env print_state).returned = Returned.pointer (some c)) := by
  constructor
  · intro c h
    obtain ⟨-, j, hj, r1, r2, -, -, r5⟩ := select_model_winner env print_state c h
    refine ⟨j, hj, r1, r2, ?_, ?_⟩
    · intro hd
      rw [List.maximum_eq_coe_iff]
      constructor
      · exact List.mem_map.mpr ⟨j, List.mem_range.mpr hj, rfl⟩
      · intro a ha
        obtain ⟨i, hi, rfl⟩ := List.mem_map.mp ha
        have := r5 i (List.mem_range.mp hi)
        rw [hd] at this
        simpa [improves] using this
    · intro hd
      rw [List.minimum_eq_coe_iff]
      constructor
      · exact List.mem_map.mpr ⟨j, List.mem_range.mpr hj, rfl⟩
      · intro a ha
        obtain ⟨i, hi, rfl⟩ := List.mem_map.mp ha
        have := r5 i (List.mem_range.mp hi)
        rw [hd] at this
        simpa [improves] using this
  · intro hle hwf hbeat
    exact select_model_returns_some env print_state hle hwf hbeat

/-- C1 at scenarios A and B: with means 0.70, 0.95, 0.81 at ratio 1, `select_model` returns `c1`
under `ED_MAXIMIZE` and `c0` under `ED_MINIMIZE`, and 0.95 is the maximum and 0.70 the
minimum of the three means. -/
theorem select_model_returns_optimum_scenarios :
    (select_model (scenario EEvaluationDirection.ED_MAXIMIZE) false).returned
      = Returned.pointer (some Candidate.c1)
    ∧ (select_model (scenario EEvaluationDirection.ED_MINIMIZE) false).returned
      = Returned.pointer (some Candidate.c0)
    ∧ (∃ j < 3, get_element
          (select_model (scenario EEvaluationDirection.ED_MAXIMIZE) false).combinations j
            = some Candidate.c1
        ∧ (outcome_means (scenario EEvaluationDirection.ED_MAXIMIZE) 3).maximum
            = (((scenario EEvaluationDirection.ED_MAXIMIZE).evaluate j).mean : WithBot ℚ))
    ∧ (∃ j < 3, get_element
          (select_model (scenario EEvaluationDirection.ED_MINIMIZE) false).combinations j
            = some Candidate.c0
        ∧ (outcome_means (scenario EEvaluationDirection.ED_MINIMIZE) 3).minimum
            = (((scenario EEvaluationDirection.ED_MINIMIZE).evaluate j).mean : WithTop ℚ)) := by
  have hA : (select_model (scenario EEvaluationDirection.ED_MAXIMIZE) false).returned
      = Returned.pointer (some Candidate.c1) := by decide!
  have hB : (select_model (scenario EEvaluationDirection.ED_MINIMIZE) false).returned
      = Returned.pointer (some Candidate.c0) := by decide!
  have lA : (select_model (scenario EEvaluationDirection.ED_MAXIMIZE) false).combinations.length
      = 3 := by decide!
  have lB : (select_model (scenario EEvaluationDirection.ED_MINIMIZE) false).combinations.length
      = 3 := by decide!
  refine ⟨hA, hB, ?_, ?_⟩
  · obtain ⟨j, hj, h1, -, h3, -⟩ :=
      (select_model_returns_optimum (scenario EEvaluationDirection.ED_MAXIMIZE) false).1 _ hA
    rw [lA] at hj h3
    exact ⟨j, hj, h1, h3 rfl⟩
  · obtain ⟨j, hj, h1, -, -, h4⟩ :=
      (select_model_returns_optimum (scenario EEvaluationDirection.ED_MINIMIZE) false).1 _ hB
    rw [lB] at hj h4
    exact ⟨j, hj, h1, h4 rfl⟩

/-- C2. Ties do not displace the incumbent.  When the objects of the candidate space are
pairwise distinct and `select_model` returns the candidate at position `j` of the working
subset, every earlier position has a strictly worse mean (strictly smaller under
`ED_MAXIMIZE`, strictly larger under `ED_MINIMIZE`), no position has a strictly better
one, and so `j` is the first position that attains the mean of position `j`. -/
theorem select_model_first_seen_wins (env : Env α) (print_state : Bool) (c : α) (j : Nat)
    (hnd : env.get_combinations.Nodup)
    (h : (select_model env print_state).returned = Returned.pointer (some c))
    (hj : get_element (select_model env print_state).combinations j = some c) :
    (env.get_evaluation_direction = EEvaluationDirection.ED_MAXIMIZE →
      (∀ i < j, (env.evaluate i).mean < (env.evaluate j).mean)
      ∧ ∀ i < (select_model env print_state).combinations.length,
          (env.evaluate i).mean ≤ (env.evaluate j).mean)
    ∧ (env.get_evaluation_direction = EEvaluationDirection.ED_MINIMIZE →
      (∀ i < j, (env.evaluate j).mean < (env.evaluate i).mean)
      ∧ ∀ i < (select_model env print_state).combinations.length,
          (env.evaluate j).mean ≤ (env.evaluate i).mean)
    ∧ ∀ i < (select_model env print_state).combinations.length,
        (env.evaluate i).mean = (env.evaluate j).mean → j ≤ i := by
  obtain ⟨-, k, hk, r1, -, -, r4, r5⟩ := select_model_winner env print_state c h
  have hjk : j = k := by
    have hjl : j < (select_model env print_state).combinations.length := by
      by_contra hge
      have : (select_model env print_state).combinations[j]? = none :=
        List.getElem?_eq_none (by omega)
      simp [get_element, this] at hj
    rw [select_model_length] at hjl hk
    rw [select_model_get_element env print_state j hjl] at hj
    rw [select_model_get_element env print_state k hk] at r1
    have hjN : j < env.get_combinations.length := by
      by_contra hge
      rw [List.getElem?_eq_none (by omega)] at hj
      simp at hj
    exact List.getElem?_inj hjN hnd (hj.trans r1.symm)
  subst hjk
  refine ⟨?_, ?_, ?_⟩
  · intro hd
    rw [hd] at r4 r5
    exact ⟨fun i hi => by simpa [improves] using r4 i hi,
      fun i hi => by simpa [improves] using r5 i hi⟩
  · intro hd
    rw [hd] at r4 r5
    exact ⟨fun i hi => by simpa [improves] using r4 i hi,
      fun i hi => by simpa [improves] using r5 i hi⟩
  · intro i hi heq
    by_contra hlt
    have := r4 i (by omega)
    rw [heq] at this
    cases hd : env.get_evaluation_direction <;> rw [hd] at this <;> simp [improves] at this

/-- C2 at scenario A: `c1`, at position 1, is returned, and position 0 has the strictly smaller
mean 0.70 < 0.95. -/
theorem select_model_first_seen_wins_scenario :
    (scenario EEvaluationDirection.ED_MAXIMIZE).get_combinations.Nodup
    ∧ (select_model (scenario EEvaluationDirection.ED_MAXIMIZE) false).returned
        = Returned.pointer (some Candidate.c1)
    ∧ get_element (select_model (scenario EEvaluationDirection.ED_MAXIMIZE) false).combinations 1
        = some Candidate.c1
    ∧ ∀ i < 1, ((scenario EEvaluationDirection.ED_MAXIMIZE).evaluate i).mean
        < ((scenario EEvaluationDirection.ED_MAXIMIZE).evaluate 1).mean :=
  ⟨by decide, by decide!, by decide!,
    ((select_model_first_seen_wins (scenario EEvaluationDirection.ED_MAXIMIZE) false
      Candidate.c1 1 (by decide) (by decide!) (by decide!)).1 rfl).1⟩

/-- C3, as the code has it.  Every candidate `select_model` returns is an element of the
candidate space.  When the sampled index vector is no longer than the space and all
outcomes are cross-validation results, a candidate is returned exactly when the mean of
some evaluated outcome strictly improves on the sentinel of the direction; otherwise
`select_model` returns `NULL`. -/
theorem select_model_returns_member (env : Env α) (print_state : Bool) :
    (∀ c, (select_model env print_state).returned = Returned.pointer (some c) →
      c ∈ env.get_combinations)
    ∧ ((combinations_indices env).length ≤ env.get_combinations.length →
        well_formed env (combinations_indices env).length →
        ((∃ c, (select_model env print_state).returned = Returned.pointer (some c)
            ∧ c ∈ env.get_combinations) ↔
          ∃ i < (combinations_indices env).length,
            improves env.get_evaluation_direction (env.evaluate i).mean
              (sentinel_mean env))
        ∧ ((¬ ∃ i < (combinations_indices env).length,
            improves env.get_evaluation_direction (env.evaluate i).mean
              (sentinel_mean env)) →
          (select_model env print_state).returned = Returned.pointer none)) := by
  have hmem : ∀ c, (select_model env print_state).returned = Returned.pointer (some c) →
      c ∈ env.get_combinations := by
    intro c h
    obtain ⟨-, j, hj, r1, -⟩ := select_model_winner env print_state c h
    rw [select_model_length] at hj
    rw [select_model_get_element env print_state j hj] at r1
    exact List.getElem?_mem r1
  refine ⟨hmem, fun hle hwf => ⟨⟨?_, ?_⟩, ?_⟩⟩
  · rintro ⟨c, h, -⟩
    obtain ⟨-, j, hj, -, -, r3, -⟩ := select_model_winner env print_state c h
    rw [select_model_length] at hj
    exact ⟨j, hj, r3⟩
  · intro hb
    obtain ⟨c, hc⟩ := select_model_returns_some env print_state hle hwf hb
    exact ⟨c, hc, hmem c hc⟩
  · intro hno
    exact select_model_returns_null_of_no_improvement env print_state hle hwf
      (fun i hi himp => hno ⟨i, hi, himp⟩)

/-- C3 at scenario A, and at scenario A with ratio 1/4.  In the first the index vector has
three entries, the three outcomes are well formed and 0.70 improves on the sentinel: a
candidate is returned, and it is one of the three candidates.  In the second the index
vector is empty, so no evaluated outcome improves on the sentinel: `NULL` is returned. -/
theorem select_model_returns_member_scenario :
    (∃ c, (select_model (scenario EEvaluationDirection.ED_MAXIMIZE) false).returned
        = Returned.pointer (some c)
      ∧ c ∈ (scenario EEvaluationDirection.ED_MAXIMIZE).get_combinations)
    ∧ (select_model scenario_quarter false).returned = Returned.pointer none :=
  ⟨((select_model_returns_member (scenario EEvaluationDirection.ED_MAXIMIZE) false).2
      (by decide!) (by decide!)).1.2 ⟨0, by decide!, by decide!⟩,
    ((select_model_returns_member scenario_quarter false).2
      (by decide!) (by decide!)).2 (by decide!)⟩

/-- C3 fails as stated.  With three candidates, ratio 1/4 > 0 and well-formed outcomes
the requested sample size is 0 and `select_model` returns `NULL`; with one candidate at
ratio 1 whose mean equals the sentinel it returns `NULL` as well. -/
theorem select_model_returns_null :
    (scenario_quarter.get_combinations ≠ [] ∧ 0 < scenario_quarter.m_ratio
      ∧ well_formed scenario_quarter 3
      ∧ sample_size 3 scenario_quarter.m_ratio = 0
      ∧ (select_model scenario_quarter false).returned = Returned.pointer none)
    ∧ (scenario_sentinel.get_combinations ≠ [] ∧ 0 < scenario_sentinel.m_ratio
      ∧ well_formed scenario_sentinel 1
      ∧ (select_model scenario_sentinel false).combinations = [some Candidate.c0]
      ∧ (select_model scenario_sentinel false).returned = Returned.pointer none) := by
  refine ⟨⟨by decide, by decide!, by decide!, by decide!, by decide!⟩,
    ⟨by decide, by decide!, by decide!, by decide!, by decide!⟩⟩

/-- C4 fails on the code.  With the space `[c0, c1, c2]` and the sampled index vector
`[2]`, the working subset lines 49-50 build is `[c0]`, the element at the loop counter 0,
not `[c2]`, the element at the sampled index; `c0` is evaluated and returned. -/
theorem working_subset_reads_loop_counter :
    combinations_indices scenario_last = [2]
    ∧ get_element (scenario_last.get_combinations.map some) 2 = some Candidate.c2
    ∧ (select_model scenario_last false).combinations = [some Candidate.c0]
    ∧ applied_candidates (select_model scenario_last false).final.trace = [Candidate.c0]
    ∧ (select_model scenario_last false).returned = Returned.pointer (some Candidate.c0) := by
  refine ⟨by decide!, by decide!, by decide!, by decide!, by decide!⟩

/-- C5, as the code has it.  For a space of `N < 2 ^ 31` candidates, a ratio in (0, 1]
and a sampler that returns as many indices as it is asked for, the sample size passed to
the sampler, which is the number of elements of the working subset, is
`floor (fl (N * ratio))`, where `fl` rounds the product to the nearest double; it is at
least 0 and at most `N`, and it is `floor (N * ratio)` whenever the product is itself a
double. -/
theorem working_subset_size (env : Env α) (print_state : Bool)
    (hN : env.get_combinations.length < 2 ^ 31)
    (hr0 : 0 < env.m_ratio) (hr1 : env.m_ratio ≤ 1)
    (hs : (combinations_indices env).length
      = (sample_size env.get_combinations.length env.m_ratio).toNat) :
    ((select_model env print_state).combinations.length : Int)
      = sample_size env.get_combinations.length env.m_ratio
    ∧ sample_size env.get_combinations.length env.m_ratio
      = ⌊float64_round ((env.get_combinations.length : ℚ) * env.m_ratio)⌋
    ∧ 0 ≤ sample_size env.get_combinations.length env.m_ratio
    ∧ sample_size env.get_combinations.length env.m_ratio ≤ env.get_combinations.length
    ∧ (select_model env print_state).combinations.length ≤ env.get_combinations.length
    ∧ (float64_round ((env.get_combinations.length : ℚ) * env.m_ratio)
          = (env.get_combinations.length : ℚ) * env.m_ratio →
        ((select_model env print_state).combinations.length : Int)
          = ⌊(env.get_combinations.length : ℚ) * env.m_ratio⌋) := by
  have hb := sample_size_bounds env.get_combinations.length env.m_ratio
    (lt_trans hN (by norm_num)) hr0.le hr1
  have he := sample_size_eq_floor env.get_combinations.length env.m_ratio hr0.le
  have hl : ((select_model env print_state).combinations.length : Int)
      = sample_size env.get_combinations.length env.m_ratio := by
    rw [select_model_length, hs]
    exact Int.toNat_of_nonneg hb.1
  refine ⟨hl, he, hb.1, hb.2, ?_, ?_⟩
  · have := hb.2
    rw [← hl] at this
    exact_mod_cast this
  · intro hx
    rw [hl, he, hx]

/-- C5 at scenario C: three candidates and the double nearest to 0.34 give a working subset of
one element. -/
theorem working_subset_size_scenario_c :
    scenario_c.get_combinations.length = 3
    ∧ (select_model scenario_c false).combinations.length = 1 := by
  obtain ⟨h1, h2, -⟩ := working_subset_size scenario_c false (by decide!) (by decide!)
    (by decide!) (by decide!)
  have h3 : ⌊float64_round ((scenario_c.get_combinations.length : ℚ) * scenario_c.m_ratio)⌋
      = 1 := by decide!
  rw [h2, h3] at h1
  exact ⟨by decide, by exact_mod_cast h1⟩

/-- C5 fails as stated.  With three candidates and the ratio the double nearest to 1/3,
the product `3 * ratio` is `1 - 2 ^ (-54)` and rounds to the double 1.0: the working
subset has one element, while `floor (3 * ratio)` is 0. -/
theorem working_subset_size_not_floor :
    0 < scenario_third.m_ratio ∧ scenario_third.m_ratio ≤ 1
    ∧ float64_round scenario_third.m_ratio = scenario_third.m_ratio
    ∧ scenario_third.get_combinations.length = 3
    ∧ float64_round (3 * scenario_third.m_ratio) = 1
    ∧ (select_model scenario_third false).combinations.length = 1
    ∧ ⌊(3 : ℚ) * scenario_third.m_ratio⌋ = 0 := by
  refine ⟨by decide!, by decide!, by decide!, by decide, by decide!, by decide!, by decide!⟩

/-- C6. With ratio 1, a space of `N < 2 ^ 31` candidates and a sampler that returns as
many indices as it is asked for, the working subset is the candidate space itself: `N`
elements, element `i` of the one being element `i` of the other.  No run applies or
evaluates a candidate twice (the applied candidates are the first `k` of the space, for
some `k`), and when all outcomes are cross-validation results every candidate is applied
and evaluated exactly once, in order. -/
theorem ratio_one_draws_whole_space (env : Env α) (print_state : Bool)
    (hN : env.get_combinations.length < 2 ^ 31) (hr : env.m_ratio = 1)
    (hs : (combinations_indices env).length
      = (sample_size env.get_combinations.length env.m_ratio).toNat) :
    (select_model env print_state).combinations = env.get_combinations.map some
    ∧ (select_model env print_state).combinations.length = env.get_combinations.length
    ∧ (∃ k ≤ env.get_combinations.length,
        applied_candidates (select_model env print_state).final.trace
          = env.get_combinations.take k
        ∧ evaluate_calls (select_model env print_state).final.trace = List.range k)
    ∧ (well_formed env env.get_combinations.length →
        applied_candidates (select_model env print_state).final.trace = env.get_combinations
        ∧ evaluate_calls (select_model env print_state).final.trace
            = List.range env.get_combinations.length) := by
  have hv : (combinations_indices env).length = env.get_combinations.length := by
    rw [hs, hr, sample_size_one _ (lt_trans hN (by norm_num))]
    simp
  have hc : (select_model env print_state).combinations = env.get_combinations.map some := by
    rw [select_model_combinations, hv, build_combinations_all]
  have hfull : well_formed env env.get_combinations.length →
      applied_candidates (select_model env print_state).final.trace = env.get_combinations
      ∧ evaluate_calls (select_model env print_state).final.trace
          = List.range env.get_combinations.length := by
    intro hwf
    obtain ⟨-, ha, hev⟩ := select_model_trace_ok env print_state (le_of_eq hv) (by rwa [hv])
    rw [hv] at ha hev
    exact ⟨by rw [ha, List.take_length], hev⟩
  refine ⟨hc, by rw [hc, List.length_map], ?_, hfull⟩
  by_cases hwf : well_formed env env.get_combinations.length
  · exact ⟨_, le_refl _, by rw [(hfull hwf).1, List.take_length], (hfull hwf).2⟩
  · obtain ⟨j, hj, hbad, hwfj⟩ := not_well_formed_first env _ hwf
    obtain ⟨-, ha, hev, -⟩ := select_model_first_malformed env print_state (le_of_eq hv) j
      (by omega) hbad hwfj
    exact ⟨j + 1, by omega, ha, hev⟩

/-- C6 at scenario A: at ratio 1 the working subset is `[c0, c1, c2]` and each of the three is
applied and evaluated once. -/
theorem ratio_one_draws_whole_space_scenario :
    (select_model (scenario EEvaluationDirection.ED_MAXIMIZE) false).combinations
      = [some Candidate.c0, some Candidate.c1, some Candidate.c2]
    ∧ applied_candidates
        (select_model (scenario EEvaluationDirection.ED_MAXIMIZE) false).final.trace
      = [Candidate.c0, Candidate.c1, Candidate.c2]
    ∧ evaluate_calls
        (select_model (scenario EEvaluationDirection.ED_MAXIMIZE) false).final.trace
      = [0, 1, 2] := by
  obtain ⟨h1, -, -, h4⟩ := ratio_one_draws_whole_space
    (scenario EEvaluationDirection.ED_MAXIMIZE) false (by decide!) rfl (by decide!)
  obtain ⟨h5, h6⟩ := h4 (by decide!)
  exact ⟨h1, h5, h6⟩

/-- C7, as the code has it.  In a run with a non-empty working subset no longer than the
space and well-formed outcomes, the first iteration replaces the sentinel exactly when the
mean of the first outcome strictly improves on it (`>` `ALMOST_NEG_INFTY` under
`ED_MAXIMIZE`, `<` `ALMOST_INFTY` under `ED_MINIMIZE`); in that case `best_result` is the
first outcome after the first iteration and some evaluator outcome at the end, and the
candidate returned is not `NULL`. -/
theorem first_outcome_replaces_sentinel (env : Env α) (print_state : Bool)
    (hv : 0 < (combinations_indices env).length)
    (hle : (combinations_indices env).length ≤ env.get_combinations.length)
    (hwf : well_formed env (combinations_indices env).length) :
    ((state_after env print_state (select_model env print_state).combinations
        (initial_state env print_state (trace_before_loop env print_state)) 1).best_combination
          ≠ none
      ↔ improves env.get_evaluation_direction (env.evaluate 0).mean (sentinel_mean env))
    ∧ (improves env.get_evaluation_direction (env.evaluate 0).mean (sentinel_mean env) →
        (state_after env print_state (select_model env print_state).combinations
          (initial_state env print_state (trace_before_loop env print_state)) 1).best_result
            = env.evaluate 0
        ∧ (∃ c, (select_model env print_state).returned = Returned.pointer (some c))
        ∧ ∃ j < (combinations_indices env).length,
            (select_model env print_state).final.best_result = env.evaluate j) := by
  obtain ⟨i0e, i0n, i0c, i0m, -⟩ :=
    initial_state_facts env print_state (trace_before_loop env print_state)
  have hok1 := select_model_ok_upto env print_state hle 1 (by omega)
    (fun i hi => hwf i (by omega))
  obtain ⟨⟨c, hc⟩, hty⟩ := hok1 0 (by omega)
  have hstep : state_after env print_state (select_model env print_state).combinations
      (initial_state env print_state (trace_before_loop env print_state)) 1
      = loop_body env print_state (select_model env print_state).combinations 0
          (initial_state env print_state (trace_before_loop env print_state)) := by
    have := state_after_succ env print_state (select_model env print_state).combinations
      _ i0e 0
    rwa [state_after_zero, if_pos i0e] at this
  rw [← i0n] at hty
  obtain ⟨-, -, e3, e4⟩ := loop_body_ok env print_state _ 0 _ c hc hty
  rw [i0m, i0n] at e3 e4
  rw [hstep, e3, e4]
  by_cases hb : improves env.get_evaluation_direction (env.evaluate 0).mean (sentinel_mean env)
  · have hr := (rank_lt_iff _ _ _).mpr hb
    rw [if_pos hr, if_pos hr]
    refine ⟨⟨fun _ => hb, fun _ => by simp⟩, fun _ => ⟨rfl, ?_, ?_⟩⟩
    · exact select_model_returns_some env print_state hle hwf ⟨0, hv, hb⟩
    · obtain ⟨c2, hret⟩ := select_model_returns_some env print_state hle hwf ⟨0, hv, hb⟩
      obtain ⟨-, j, hj, -, r2, -⟩ := select_model_winner env print_state c2 hret
      rw [select_model_length] at hj
      exact ⟨j, hj, r2⟩
  · have hr : ¬ rank env.get_evaluation_direction (sentinel_mean env)
        < rank env.get_evaluation_direction (env.evaluate 0).mean :=
      fun h => hb ((rank_lt_iff _ _ _).mp h)
    rw [if_neg hr]
    exact ⟨⟨fun h => absurd i0c h, fun h => absurd h hb⟩, fun h => absurd h hb⟩

/-- C7 at scenario A: 0.70 improves on the sentinel -1000, so the first outcome replaces it and
a candidate is returned. -/
theorem first_outcome_replaces_sentinel_scenario :
    improves EEvaluationDirection.ED_MAXIMIZE
      ((scenario EEvaluationDirection.ED_MAXIMIZE).evaluate 0).mean
      (sentinel_mean (scenario EEvaluationDirection.ED_MAXIMIZE))
    ∧ ∃ c, (select_model (scenario EEvaluationDirection.ED_MAXIMIZE) false).returned
        = Returned.pointer (some c) :=
  ⟨by decide!,
    ((first_outcome_replaces_sentinel (scenario EEvaluationDirection.ED_MAXIMIZE) false
      (by decide!) (by decide!) (by decide!)).2 (by decide!)).2.1⟩

/-- C7 fails as stated.  Whatever the finite values of the two sentinels, a first
candidate whose well-formed outcome has the sentinel of the direction as its mean does
not strictly beat it, and `NULL` is returned.  With sentinels of magnitude 1000, a single
candidate of mean -2000 under `ED_MAXIMIZE`, or 2000 under `ED_MINIMIZE`, does not beat
the sentinel either: after the loop `best_result` still holds the sentinel mean and
`best_combination` is `NULL`. -/
theorem sentinel_survives :
    (∀ d lo hi, (select_model (scenario_tie d lo hi) false).combinations
        = [some Candidate.c0]
      ∧ well_formed (scenario_tie d lo hi) 1
      ∧ ((scenario_tie d lo hi).evaluate 0).mean = sentinel_mean (scenario_tie d lo hi)
      ∧ (select_model (scenario_tie d lo hi) false).returned = Returned.pointer none)
    ∧ (∀ d, (select_model (scenario_lost d) false).combinations = [some Candidate.c0]
      ∧ well_formed (scenario_lost d) 1
      ∧ ¬ improves d ((scenario_lost d).evaluate 0).mean (sentinel_mean (scenario_lost d))
      ∧ (select_model (scenario_lost d) false).final.best_result.mean
          = sentinel_mean (scenario_lost d)
      ∧ (select_model (scenario_lost d) false).final.best_combination = none
      ∧ (select_model (scenario_lost d) false).returned = Returned.pointer none) := by
  constructor
  · intro d lo hi
    have hv : combinations_indices (scenario_tie d lo hi) = [0] := by
      show first_indices (sample_size 1 1) 1 = [0]
      decide!
    have hwf : well_formed (scenario_tie d lo hi) 1 := by
      intro i hi
      have : i = 0 := by omega
      subst this
      cases d <;> rfl
    have hm : ((scenario_tie d lo hi).evaluate 0).mean = sentinel_mean (scenario_tie d lo hi) := by
      cases d <;> rfl
    refine ⟨?_, hwf, hm, ?_⟩
    · rw [select_model_combinations, hv]
      rfl
    · apply select_model_returns_null_of_no_improvement
      · rw [hv]; exact le_refl _
      · rw [hv]; exact hwf
      · intro i hi
        rw [hv] at hi
        have : i = 0 := by simpa using hi
        subst this
        rw [hm]
        cases d <;> simp [improves, scenario_tie]
  · intro d
    cases d <;>
      refine ⟨by decide!, by decide!, by decide!, by decide!, by decide!, by decide!⟩

/-- C8. In a run whose sampled index vector is no longer than the space, `select_model`
raises the unexpected-result-type failure exactly when some outcome of the working subset
is not tagged `CROSSVALIDATION_RESULT`.  If `j` is the first such position, the candidates
applied are the first `j + 1` of the subset and the evaluator calls are the calls
`0, ..., j`: nothing later is applied or evaluated; `best_result` and `best_combination`
are as the first `j` iterations left them; and no pointer is returned. -/
theorem select_model_fails_fast (env : Env α) (print_state : Bool)
    (hle : (combinations_indices env).length ≤ env.get_combinations.length) :
    ((select_model env print_state).returned
        = Returned.failure Failure.unexpected_result_type
      ↔ ∃ i < (select_model env print_state).combinations.length,
          (env.evaluate i).result_type ≠ EEvaluationResultType.CROSSVALIDATION_RESULT)
    ∧ ∀ j < (select_model env print_state).combinations.length,
        (env.evaluate j).result_type ≠ EEvaluationResultType.CROSSVALIDATION_RESULT →
        (∀ i < j, (env.evaluate i).result_type
          = EEvaluationResultType.CROSSVALIDATION_RESULT) →
        (select_model env print_state).returned
          = Returned.failure Failure.unexpected_result_type
        ∧ (∀ x, (select_model env print_state).returned ≠ Returned.pointer x)
        ∧ applied_candidates (select_model env print_state).final.trace
            = env.get_combinations.take (j + 1)
        ∧ evaluate_calls (select_model env print_state).final.trace = List.range (j + 1)
        ∧ (select_model env print_state).final.best_result
            = (state_after env print_state (select_model env print_state).combinations
                (initial_state env print_state (trace_before_loop env print_state))
                j).best_result
        ∧ (select_model env print_state).final.best_combination
            = (state_after env print_state (select_model env print_state).combinations
                (initial_state env print_state (trace_before_loop env print_state))
                j).best_combination := by
  have key : ∀ j < (select_model env print_state).combinations.length,
      (env.evaluate j).result_type ≠ EEvaluationResultType.CROSSVALIDATION_RESULT →
      (∀ i < j, (env.evaluate i).result_type
        = EEvaluationResultType.CROSSVALIDATION_RESULT) →
      (select_model env print_state).returned
        = Returned.failure Failure.unexpected_result_type
      ∧ (∀ x, (select_model env print_state).returned ≠ Returned.pointer x)
      ∧ applied_candidates (select_model env print_state).final.trace
          = env.get_combinations.take (j + 1)
      ∧ evaluate_calls (select_model env print_state).final.trace = List.range (j + 1)
      ∧ (select_model env print_state).final.best_result
          = (state_after env print_state (select_model env print_state).combinations
              (initial_state env print_state (trace_before_loop env print_state))
              j).best_result
      ∧ (select_model env print_state).final.best_combination
          = (state_after env print_state (select_model env print_state).combinations
              (initial_state env print_state (trace_before_loop env print_state))
              j).best_combination := by
    intro j hj hbad hwf
    rw [select_model_length] at hj
    obtain ⟨e, ha, hev, hb, hc⟩ :=
      select_model_first_malformed env print_state hle j hj hbad hwf
    have hret := (select_model_returned_failure env print_state _).mpr e
    refine ⟨hret, ?_, ha, hev, hb, hc⟩
    intro x hx
    rw [hret] at hx
    exact Returned.noConfusion hx
  refine ⟨⟨?_, ?_⟩, key⟩
  · intro h
    by_contra hnone
    have hwf : well_formed env (combinations_indices env).length := by
      intro i hi
      by_contra hbad
      exact hnone ⟨i, by rw [select_model_length]; exact hi, hbad⟩
    obtain ⟨he, -⟩ := select_model_trace_ok env print_state hle hwf
    rw [(select_model_returned_failure env print_state _).mp h] at he
    simp at he
  · rintro ⟨i, hi, hbad⟩
    have hnwf : ¬ well_formed env (select_model env print_state).combinations.length :=
      fun hwf => hbad (hwf i hi)
    obtain ⟨j, hj, hjbad, hjwf⟩ := not_well_formed_first env _ hnwf
    exact (key j hj hjbad hjwf).1

/-- C8 at scenario D: a mismatched tag on the second of three candidates fails the search after
exactly two evaluations, with `c0` and `c1` applied and `c2` never applied. -/
theorem select_model_fails_fast_scenario_d :
    (select_model scenario_d false).returned
      = Returned.failure Failure.unexpected_result_type
    ∧ applied_candidates (select_model scenario_d false).final.trace
      = [Candidate.c0, Candidate.c1]
    ∧ evaluate_calls (select_model scenario_d false).final.trace = [0, 1] := by
  obtain ⟨h1, -, h3, h4, -⟩ := (select_model_fails_fast scenario_d false (by decide!)).2 1
    (by decide!) (by decide!) (by decide!)
  exact ⟨h1, h3, h4⟩

/-- C9, as the code has it.  When the candidate space is empty, or the computed sample
size is zero, and the sampler returns as many indices as it is asked for, the working
subset is empty and `select_model` neither crashes nor reports a failure: no failure is
raised, the loop state carries no error, and the value returned is `NULL`, the initial
value of `best_combination`.  No candidate is applied and the evaluator is never
called. -/
theorem select_model_empty_subset (env : Env α) (print_state : Bool)
    (hs : (combinations_indices env).length
      = (sample_size env.get_combinations.length env.m_ratio).toNat)
    (h : env.get_combinations = []
      ∨ sample_size env.get_combinations.length env.m_ratio = 0) :
    (select_model env print_state).combinations = []
    ∧ (select_model env print_state).returned = Returned.pointer none
    ∧ (select_model env print_state).final.error = none
    ∧ (∀ f, (select_model env print_state).returned ≠ Returned.failure f)
    ∧ evaluate_calls (select_model env print_state).final.trace = []
    ∧ applied_candidates (select_model env print_state).final.trace = [] := by
  have hv : (combinations_indices env).length = 0 := by
    rcases h with h | h
    · rw [hs, h, List.length_nil, sample_size_zero]
      rfl
    · rw [hs, h]
      rfl
  have hc : (select_model env print_state).combinations = [] :=
    List.eq_nil_of_length_eq_zero (by rw [select_model_length, hv])
  obtain ⟨he, ha, hev⟩ := select_model_trace_ok env print_state (by omega)
    (fun i hi => by omega)
  rw [hv] at ha hev
  obtain ⟨t, hfin, -⟩ := select_model_final env print_state
  have hret : (select_model env print_state).returned = Returned.pointer none := by
    refine (select_model_returned_pointer env print_state none).mpr ⟨he, ?_⟩
    rw [hfin, hc, List.length_nil, state_after_zero]
    exact (initial_state_facts env print_state t).2.2.1
  refine ⟨hc, hret, he, ?_, by simpa using hev, by simpa using ha⟩
  intro f hf
  rw [hret] at hf
  exact Returned.noConfusion hf

/-- C9 at scenario E, and at scenario A with ratio 1/4: an empty space, and a space of
three at a computed sample size of zero, both return `NULL`, raise no failure and make no
evaluator call. -/
theorem select_model_empty_subset_scenarios :
    ((select_model scenario_e false).returned = Returned.pointer none
      ∧ (select_model scenario_e false).final.error = none
      ∧ evaluate_calls (select_model scenario_e false).final.trace = [])
    ∧ ((select_model scenario_quarter true).returned = Returned.pointer none
      ∧ (select_model scenario_quarter true).final.error = none
      ∧ evaluate_calls (select_model scenario_quarter true).final.trace = []) := by
  obtain ⟨-, h1, e1, -, h2, -⟩ := select_model_empty_subset scenario_e false (by decide!)
    (Or.inl rfl)
  obtain ⟨-, h3, e3, -, h4, -⟩ := select_model_empty_subset scenario_quarter true
    (by decide!) (Or.inr (by decide!))
  exact ⟨⟨h1, e1, h2⟩, ⟨h3, e3, h4⟩⟩

/-- C9 fails as stated.  With the empty candidate space of scenario E no failure is
reported: the run raises none, its loop state carries no error, and it returns the
pointer `NULL` of line 147.  That value does not say that no candidate was found: the run
of scenario A's single-candidate variant whose mean equals the sentinel evaluates a
candidate, and returns the same `NULL` in the same way. -/
theorem empty_space_reports_no_failure :
    scenario_e.get_combinations = []
    ∧ (select_model scenario_e false).returned = Returned.pointer none
    ∧ (select_model scenario_e false).final.error = none
    ∧ (∀ f, (select_model scenario_e false).returned ≠ Returned.failure f)
    ∧ evaluate_calls (select_model scenario_e false).final.trace = []
    ∧ (scenario_sentinel.get_combinations = [Candidate.c0]
      ∧ evaluate_calls (select_model scenario_sentinel false).final.trace = [0]
      ∧ (select_model scenario_sentinel false).returned
          = (select_model scenario_e false).returned) := by
  have hret : (select_model scenario_e false).returned = Returned.pointer none := by decide!
  refine ⟨rfl, hret, by decide!, ?_, by decide!, rfl, by decide!, by decide!⟩
  intro f hf
  rw [hret] at hf
  exact Returned.noConfusion hf

/-- C10 fails on the code.  With the space `[c0, c1, c2]` at ratio 3/4 the working subset
is `[c0, c1]` and the run returns `c1`.  Counting `get_element` as one reference acquired
and `SG_UNREF` as one released, the loser `c0` ends one reference above where it started
and the winner `c1` two above, while `c2`, never touched, ends where it started: the
reference taken by `get_element` at line 50 is never released. -/
theorem line_50_reference_is_never_released :
    (select_model scenario_two false).combinations = [some Candidate.c0, some Candidate.c1]
    ∧ well_formed scenario_two 2
    ∧ (select_model scenario_two false).returned = Returned.pointer (some Candidate.c1)
    ∧ net_references Candidate.c0 (trace_before_loop scenario_two false) = 1
    ∧ net_references Candidate.c0 (select_model scenario_two false).final.trace = 1
    ∧ net_references Candidate.c1 (select_model scenario_two false).final.trace = 2
    ∧ net_references Candidate.c2 (select_model scenario_two false).final.trace = 0 := by
  refine ⟨by decide!, by decide!, by decide!, by decide!, by decide!, by decide!, by decide!⟩

/-- The reference balance of a run of `select_model` that raises no failure.  Counting
`get_element` as one reference acquired and `SG_UNREF` as one released, a candidate ends
above where it started by the number of times it occurs in the working subset, plus one
if it is the candidate returned: the references of line 50 are never released. -/
theorem select_model_net_references [DecidableEq α] (env : Env α) (print_state : Bool)
    (hle : (combinations_indices env).length ≤ env.get_combinations.length)
    (hwf : well_formed env (combinations_indices env).length) (c : α) :
    net_references c (select_model env print_state).final.trace
      = (env.get_combinations.take (combinations_indices env).length).count c
        + (if (select_model env print_state).returned = Returned.pointer (some c)
            then 1 else 0) := by
  obtain ⟨t, hfin, -, -, htt⟩ := select_model_final env print_state
  obtain ⟨i0e, i0n, i0c, -, -⟩ := initial_state_facts env print_state t
  have hok := select_model_ok_upto env print_state hle _ (le_refl _) hwf
  rw [← select_model_length env print_state] at hok
  obtain ⟨he, -⟩ := loop_invariant env print_state _ _ i0e i0n i0c _ hok
  have hnet := state_after_net_references env print_state _ _ i0e i0n i0c _ hok c
  rw [← hfin] at he hnet
  have h0 : net_references c (initial_state env print_state t).trace
      = (env.get_combinations.take (combinations_indices env).length).count c := by
    rw [htt, ← net_references_build_trace _ _ hle c]
    unfold initial_state trace_before_loop
    cases env.get_evaluation_direction <;> cases print_state <;>
      simp [net_references_append, printed, net_references]
  rw [hnet, h0]
  congr 1
  by_cases hb : (select_model env print_state).final.best_combination = some c
  · rw [if_pos hb, if_pos ((select_model_returned_pointer env print_state _).mpr ⟨he, hb⟩)]
  · rw [if_neg hb, if_neg (fun h =>
      hb ((select_model_returned_pointer env print_state _).mp h).2)]

/-- The reference balance at scenario A: the loser `c0` ends one reference up. -/
theorem select_model_net_references_scenario :
    net_references Candidate.c0
      (select_model (scenario EEvaluationDirection.ED_MAXIMIZE) true).final.trace = 1 := by
  have h := select_model_net_references (scenario EEvaluationDirection.ED_MAXIMIZE) true
    (by decide!) (by decide!) Candidate.c0
  rw [h]
  decide!

/-- C11. The verbosity flag is purely observational.  For every environment,
`select_model(true)` and `select_model(false)` end the same way (the same pointer
returned, or the same failure raised), build the same working subset, leave the same
`best_result`, apply the same candidates and make the same evaluator calls in the same
order; the trace of the verbose run with its print events removed is the trace of the
silent run. -/
theorem print_state_is_observational (env : Env α) :
    (select_model env true).returned = (select_model env false).returned
    ∧ (select_model env true).combinations = (select_model env false).combinations
    ∧ (select_model env true).final.best_result = (select_model env false).final.best_result
    ∧ applied_candidates (select_model env true).final.trace
        = applied_candidates (select_model env false).final.trace
    ∧ evaluate_calls (select_model env true).final.trace
        = evaluate_calls (select_model env false).final.trace
    ∧ without_prints (select_model env true).final.trace
        = (select_model env false).final.trace := by
  have h := select_model_silence env true
  have he : (select_model env false).final.error = (select_model env true).final.error := by
    rw [h]; rfl
  have hb : (select_model env false).final.best_combination
      = (select_model env true).final.best_combination := by
    rw [h]; rfl
  have ht : (select_model env false).final.trace
      = without_prints (select_model env true).final.trace := by
    rw [h]; rfl
  refine ⟨?_, rfl, by rw [h]; rfl, ?_, ?_, ht.symm⟩
  · have r : ∀ ps, (select_model env ps).returned =
        match (select_model env ps).final.error with
        | some failure => Returned.failure failure
        | none => Returned.pointer (select_model env ps).final.best_combination :=
      fun _ => rfl
    rw [r true, r false, he, hb]
  · rw [ht, applied_candidates_without_prints]
  · rw [ht, evaluate_calls_without_prints]

/-- C11 at scenario D: verbose or silent, the run fails with the unexpected-result-type
failure after applying `c0` and `c1`. -/
theorem print_state_is_observational_scenario_d :
    (select_model scenario_d true).returned
      = Returned.failure Failure.unexpected_result_type
    ∧ (select_model scenario_d false).returned
      = Returned.failure Failure.unexpected_result_type
    ∧ applied_candidates (select_model scenario_d true).final.trace
      = [Candidate.c0, Candidate.c1] := by
  obtain ⟨h1, -, -, h4, -⟩ := print_state_is_observational scenario_d
  have h2 : (select_model scenario_d false).returned
      = Returned.failure Failure.unexpected_result_type := by decide!
  have h3 : applied_candidates (select_model scenario_d false).final.trace
      = [Candidate.c0, Candidate.c1] := by decide!
  exact ⟨h1.trans h2, h2, h4.trans h3⟩

/-- C12. The sampler's draw reaches `select_model` only through the length of the index
vector.  Replacing the sampler by any other that returns a vector of the same length
leaves the whole run unchanged: the same working subset, the same trace, the same
`best_result`, the same candidate returned.  The working subset holds, at each position
`i` below that length, element `i` of the candidate space: the first `k` elements of the
space, in order, when the length `k` does not exceed the size of the space, and these are
the candidates applied and evaluated when no outcome is malformed. -/
theorem sampled_values_are_ignored (env : Env α) (sampler : Int → Int → List Int)
    (print_state : Bool)
    (h : (combinations_indices { env with sample_indices := sampler }).length
      = (combinations_indices env).length) :
    select_model { env with sample_indices := sampler } print_state
      = select_model env print_state
    ∧ (select_model env print_state).combinations
        = (List.range (combinations_indices env).length).map
            (fun i => env.get_combinations[i]?)
    ∧ ((combinations_indices env).length ≤ env.get_combinations.length →
        (select_model env print_state).combinations
          = (env.get_combinations.take (combinations_indices env).length).map some
        ∧ (well_formed env (combinations_indices env).length →
            applied_candidates (select_model env print_state).final.trace
              = env.get_combinations.take (combinations_indices env).length)) := by
  refine ⟨?_, ?_, ?_⟩
  · unfold select_model trace_before_loop
    simp only [h]
    rw [main_loop_env_congr env { env with sample_indices := sampler } _ _ _ _ rfl rfl]
    rfl
  · rw [select_model_combinations, build_combinations_eq]
  · intro hle
    refine ⟨by rw [select_model_combinations, build_combinations_take _ _ hle], ?_⟩
    intro hwf
    exact (select_model_trace_ok env print_state hle hwf).2.1

/-- C12 at scenario A with ratio 1/2: the sampler that draws the index 2 and the sampler
that draws the index 0 give the same run, which evaluates and returns `c0`. -/
theorem sampled_values_are_ignored_scenario :
    combinations_indices scenario_last = [2]
    ∧ combinations_indices scenario_half = [0]
    ∧ select_model scenario_last false = select_model scenario_half false
    ∧ (select_model scenario_half false).combinations = [some Candidate.c0] := by
  have h := (sampled_values_are_ignored scenario_half last_indices false (by decide!)).1
  exact ⟨by decide!, by decide!, h, by decide!⟩

/-- C13. The loop invariant of `select_model`.  After the first `k` iterations of a run
whose first `k` outcomes are cross-validation results (and whose index vector is no
longer than the space): the mean of `best_result` is the maximum, under `ED_MAXIMIZE`, or
the minimum, under `ED_MINIMIZE`, of the sentinel and the first `k` outcome means;
`best_combination` is `NULL` exactly when none of those means strictly improves on the
sentinel, and otherwise it is the candidate at the earliest position `j < k` whose mean
is the mean of `best_result`.  Iteration `k` replaces `best_result` and
`best_combination` together, by the outcome and the candidate of position `k`, when the
mean of that outcome strictly improves on the mean of `best_result`, and leaves both
unchanged otherwise. -/
theorem select_model_loop_invariant (env : Env α) (print_state : Bool) (k : Nat)
    (hk : k ≤ (combinations_indices env).length)
    (hle : (combinations_indices env).length ≤ env.get_combinations.length)
    (hwf : well_formed env k) :
    (env.get_evaluation_direction = EEvaluationDirection.ED_MAXIMIZE →
      (sentinel_mean env :: outcome_means env k).maximum
        = ((loop_state env print_state k).best_result.mean : WithBot ℚ))
    ∧ (env.get_evaluation_direction = EEvaluationDirection.ED_MINIMIZE →
      (sentinel_mean env :: outcome_means env k).minimum
        = ((loop_state env print_state k).best_result.mean : WithTop ℚ))
    ∧ ((loop_state env print_state k).best_combination = none ↔
        ∀ i < k, ¬ improves env.get_evaluation_direction (env.evaluate i).mean
          (sentinel_mean env))
    ∧ (∀ c, (loop_state env print_state k).best_combination = some c →
        ∃ j < k, get_element (select_model env print_state).combinations j = some c
          ∧ (env.evaluate j).mean = (loop_state env print_state k).best_result.mean
          ∧ ∀ i < j, (env.evaluate i).mean
              ≠ (loop_state env print_state k).best_result.mean)
    ∧ (k < (combinations_indices env).length → well_formed env (k + 1) →
        (improves env.get_evaluation_direction (env.evaluate k).mean
            (loop_state env print_state k).best_result.mean →
          (loop_state env print_state (k + 1)).best_result = env.evaluate k
          ∧ (loop_state env print_state (k + 1)).best_combination
              = get_element (select_model env print_state).combinations k)
        ∧ (¬ improves env.get_evaluation_direction (env.evaluate k).mean
            (loop_state env print_state k).best_result.mean →
          (loop_state env print_state (k + 1)).best_result
            = (loop_state env print_state k).best_result
          ∧ (loop_state env print_state (k + 1)).best_combination
              = (loop_state env print_state k).best_combination)) := by
  obtain ⟨-, -, h3, h4, h5, h6⟩ := loop_state_invariant env print_state k hk hle hwf
  have hmem : (loop_state env print_state k).best_result.mean
      ∈ sentinel_mean env :: outcome_means env k := by
    cases hb : (loop_state env print_state k).best_combination with
    | none => rw [h5 hb]; exact List.mem_cons_self _ _
    | some c =>
      obtain ⟨j, hj, -, r2, -⟩ := h6 c hb
      rw [r2]
      exact List.mem_cons_of_mem _ (List.mem_map.mpr ⟨j, List.mem_range.mpr hj, rfl⟩)
  have hall : ∀ a ∈ sentinel_mean env :: outcome_means env k,
      rank env.get_evaluation_direction a
        ≤ rank env.get_evaluation_direction (loop_state env print_state k).best_result.mean := by
    intro a ha
    rcases List.mem_cons.mp ha with h | h
    · rw [h]; exact h3
    · obtain ⟨i, hi, rfl⟩ := List.mem_map.mp h
      exact h4 i (List.mem_range.mp hi)
  refine ⟨?_, ?_, ⟨?_, ?_⟩, ?_, ?_⟩
  · intro hd
    rw [List.maximum_eq_coe_iff]
    refine ⟨hmem, fun a ha => ?_⟩
    have := hall a ha
    rw [hd] at this
    simpa [rank] using this
  · intro hd
    rw [List.minimum_eq_coe_iff]
    refine ⟨hmem, fun a ha => ?_⟩
    have := hall a ha
    rw [hd] at this
    simpa [rank] using this
  · intro hn i hi
    have := h4 i hi
    rw [h5 hn] at this
    exact (rank_le_iff _ _ _).mp this
  · intro hno
    cases hb : (loop_state env print_state k).best_combination with
    | none => rfl
    | some c =>
      exfalso
      obtain ⟨j, hj, -, -, r3, -⟩ := h6 c hb
      exact hno j hj ((rank_lt_iff _ _ _).mp r3)
  · intro c hc
    obtain ⟨j, hj, r1, r2, -, r4⟩ := h6 c hc
    refine ⟨j, hj, r1, by rw [r2], fun i hi heq => ?_⟩
    have := r4 i hi
    rw [heq, r2] at this
    exact lt_irrefl _ this
  · intro hk2 hwf2
    exact loop_state_step env print_state k hk2 hle hwf2

/-- C13 at scenario A, after two iterations: `best_result` holds 0.95, the maximum of
-1000, 0.70 and 0.95, and `best_combination` is `c1`; the third iteration, whose mean
0.81 does not improve on 0.95, leaves both unchanged. -/
theorem select_model_loop_invariant_scenario :
    (sentinel_mean (scenario EEvaluationDirection.ED_MAXIMIZE)
        :: outcome_means (scenario EEvaluationDirection.ED_MAXIMIZE) 2).maximum
      = ((0.95 : ℚ) : WithBot ℚ)
    ∧ (loop_state (scenario EEvaluationDirection.ED_MAXIMIZE) false 2).best_combination
      = some Candidate.c1
    ∧ (loop_state (scenario EEvaluationDirection.ED_MAXIMIZE) false 3).best_combination
      = some Candidate.c1 := by
  obtain ⟨h1, -, -, -, h5⟩ := select_model_loop_invariant
    (scenario EEvaluationDirection.ED_MAXIMIZE) false 2 (by decide!) (by decide!)
    (by decide!)
  have hm : (loop_state (scenario EEvaluationDirection.ED_MAXIMIZE) false 2).best_result.mean
      = 0.95 := by decide!
  have hc : (loop_state (scenario EEvaluationDirection.ED_MAXIMIZE) false 2).best_combination
      = some Candidate.c1 := by decide!
  refine ⟨by rw [h1 rfl, hm], hc, ?_⟩
  rw [((h5 (by decide!) (by decide!)).2 (by decide!)).2, hc]

/-- C14. For a space of `N < 2 ^ 31` candidates, a ratio in (0, 1] and a sampler that
returns as many indices as it is asked for, the index vector is no longer than the space;
every index `i` at which lines 49-50 read the space is below `N` and `get_element`
returns the element stored there; every index at which the main loop reads the working
subset is below its length and `get_element` returns a candidate, not `NULL`; and no run
ends in a `NULL` dereference. -/
theorem reads_are_in_range (env : Env α) (print_state : Bool)
    (hN : env.get_combinations.length < 2 ^ 31)
    (hr0 : 0 < env.m_ratio) (hr1 : env.m_ratio ≤ 1)
    (hs : (combinations_indices env).length
      = (sample_size env.get_combinations.length env.m_ratio).toNat) :
    (combinations_indices env).length ≤ env.get_combinations.length
    ∧ (∀ i < (combinations_indices env).length,
        ∃ h : i < env.get_combinations.length,
          get_element (env.get_combinations.map some) i = some (env.get_combinations[i]))
    ∧ (∀ i ∈ List.range (select_model env print_state).combinations.length,
        i < (select_model env print_state).combinations.length
        ∧ ∃ c, get_element (select_model env print_state).combinations i = some c)
    ∧ (select_model env print_state).returned
        ≠ Returned.failure Failure.null_dereference := by
  have hb := sample_size_bounds env.get_combinations.length env.m_ratio
    (lt_trans hN (by norm_num)) hr0.le hr1
  have hle : (combinations_indices env).length ≤ env.get_combinations.length := by
    rw [hs]
    omega
  refine ⟨hle, ?_, ?_, ?_⟩
  · intro i hi
    have hiN : i < env.get_combinations.length := by omega
    exact ⟨hiN, by rw [get_element_map_some, List.getElem?_eq_getElem hiN]⟩
  · intro i hi
    have hil := List.mem_range.mp hi
    refine ⟨hil, ?_⟩
    rw [select_model_length] at hil
    rw [select_model_get_element env print_state i hil]
    exact ⟨env.get_combinations[i], List.getElem?_eq_getElem (by omega)⟩
  · intro h
    exact select_model_never_null env print_state hle
      ((select_model_returned_failure env print_state _).mp h)

/-- C14 at scenario C: with three candidates and the double nearest to 0.34 the only index
read is 0, and the run does not end in a `NULL` dereference. -/
theorem reads_are_in_range_scenario_c :
    (combinations_indices scenario_c).length = 1
    ∧ (combinations_indices scenario_c).length ≤ scenario_c.get_combinations.length
    ∧ (select_model scenario_c false).returned
        ≠ Returned.failure Failure.null_dereference := by
  obtain ⟨h1, -, -, h4⟩ := reads_are_in_range scenario_c false (by decide!) (by decide!)
    (by decide!) (by decide!)
  exact ⟨by decide!, h1, h4⟩

/-- C15. Absent a malformed outcome (and with an index vector no longer than the space),
`select_model` applies the candidates of the working subset to the machine one by one, in
order, each exactly once: the sequence of applied candidates is the working subset.  The
number of evaluator calls is the length of the working subset, the calls are the calls
`0, 1, ...` in order, and the `i`-th application is followed immediately, with no other
event between, by the `i`-th evaluator call. -/
theorem apply_then_evaluate (env : Env α) (print_state : Bool)
    (hle : (combinations_indices env).length ≤ env.get_combinations.length)
    (hwf : well_formed env (combinations_indices env).length) :
    (applied_candidates (select_model env print_state).final.trace).map some
      = (select_model env print_state).combinations
    ∧ applied_candidates (select_model env print_state).final.trace
      = env.get_combinations.take (combinations_indices env).length
    ∧ (evaluate_calls (select_model env print_state).final.trace).length
      = (select_model env print_state).combinations.length
    ∧ evaluate_calls (select_model env print_state).final.trace
      = List.range (select_model env print_state).combinations.length
    ∧ applications (select_model env print_state).final.trace
      = List.zip (applied_candidates (select_model env print_state).final.trace)
          ((evaluate_calls (select_model env print_state).final.trace).map some) := by
  obtain ⟨-, ha, hev⟩ := select_model_trace_ok env print_state hle hwf
  obtain ⟨t, hfin, ht1, ht2, -⟩ := select_model_final env print_state
  obtain ⟨i0e, i0n, i0c, -, -⟩ := initial_state_facts env print_state t
  have hok := select_model_ok_upto env print_state hle _ (le_refl _) hwf
  rw [← select_model_length env print_state] at hok
  have happ := state_after_applications env print_state _ _ i0e i0n i0c
    (by rw [(initial_state_trace env print_state t).1, ht1])
    (by rw [(initial_state_trace env print_state t).2, ht2]) _ hok
  rw [← hfin] at happ
  refine ⟨?_, ha, ?_, ?_, happ⟩
  · rw [ha, select_model_combinations, build_combinations_take _ _ hle]
  · rw [hev, List.length_range, select_model_length]
  · rw [hev, select_model_length]

/-- C15 at scenario A, verbose: `c0`, `c1`, `c2` are applied in this order, and each
application is followed immediately by the evaluator call of the same number. -/
theorem apply_then_evaluate_scenario :
    applied_candidates (select_model (scenario EEvaluationDirection.ED_MAXIMIZE) true).final.trace
      = [Candidate.c0, Candidate.c1, Candidate.c2]
    ∧ applications (select_model (scenario EEvaluationDirection.ED_MAXIMIZE) true).final.trace
      = [(Candidate.c0, some 0), (Candidate.c1, some 1), (Candidate.c2, some 2)] := by
  obtain ⟨-, h2, -, h4, h5⟩ := apply_then_evaluate
    (scenario EEvaluationDirection.ED_MAXIMIZE) true (by decide!) (by decide!)
  have hv : (combinations_indices (scenario EEvaluationDirection.ED_MAXIMIZE)).length = 3 := by
    decide!
  have hl : (select_model (scenario EEvaluationDirection.ED_MAXIMIZE) true).combinations.length
      = 3 := by decide!
  rw [hv] at h2
  rw [hl] at h4
  rw [h5, h2, h4]
  exact ⟨rfl, rfl⟩

/-- C16. The two branches of `select_model` are mirror images.  Take any environment and
its mirror image: the other direction, every outcome mean negated, and the sentinel of
the one direction the negation of the sentinel of the other.  Both runs end the same way
(the same candidate returned, or the same failure raised); after every number `k` of
iterations both hold the same `best_combination`, so the winner is adopted at the same
position, and the one `best_result` is the other with its mean negated; and both perform
the same releases and the same acquisitions in the same order (their traces differ in
print events only).  When `ALMOST_INFTY` is the negation of `ALMOST_NEG_INFTY`, the
mirror image is the same environment with the direction flipped and the means negated. -/
theorem directions_are_mirror_images (env : Env α) (print_state : Bool) :
    (mirror env).get_evaluation_direction = flipped env.get_evaluation_direction
    ∧ sentinel_mean (mirror env) = -sentinel_mean env
    ∧ (select_model (mirror env) print_state).returned
        = (select_model env print_state).returned
    ∧ (select_model (mirror env) print_state).combinations
        = (select_model env print_state).combinations
    ∧ (∀ k, (loop_state (mirror env) print_state k).best_combination
          = (loop_state env print_state k).best_combination
        ∧ (loop_state (mirror env) print_state k).best_result
          = negated (loop_state env print_state k).best_result)
    ∧ releases (select_model (mirror env) print_state).final.trace
        = releases (select_model env print_state).final.trace
    ∧ acquisitions (select_model (mirror env) print_state).final.trace
        = acquisitions (select_model env print_state).final.trace
    ∧ without_prints (select_model (mirror env) print_state).final.trace
        = without_prints (select_model env print_state).final.trace
    ∧ (env.ALMOST_INFTY = -env.ALMOST_NEG_INFTY →
        mirror env = { env with
          get_evaluation_direction := flipped env.get_evaluation_direction
          evaluate := fun k => negated (env.evaluate k) }) := by
  have key : ∀ k, silence (loop_state (mirror env) print_state k)
      = mirror_state (silence (loop_state env print_state k)) := by
    intro k
    rw [← loop_state_silence, ← loop_state_silence, loop_state_mirror]
  have hfin : silence (select_model (mirror env) print_state).final
      = mirror_state (silence (select_model env print_state).final) :=
    key (select_model env print_state).combinations.length
  have htr : without_prints (select_model (mirror env) print_state).final.trace
      = without_prints (select_model env print_state).final.trace :=
    congrArg LoopState.trace hfin
  have herr : (select_model (mirror env) print_state).final.error
      = (select_model env print_state).final.error := by
    have := congrArg LoopState.error hfin
    exact this
  have hbest : (select_model (mirror env) print_state).final.best_combination
      = (select_model env print_state).final.best_combination := by
    have := congrArg LoopState.best_combination hfin
    exact this
  refine ⟨rfl, ?_, ?_, rfl, ?_, ?_, ?_, htr, ?_⟩
  · unfold sentinel_mean
    have hdm : (mirror env).get_evaluation_direction
        = flipped env.get_evaluation_direction := rfl
    rw [hdm]
    rcases hd : env.get_evaluation_direction <;> simp [flipped, mirror]
  · have r : ∀ e : Env α, (select_model e print_state).returned =
        match (select_model e print_state).final.error with
        | some failure => Returned.failure failure
        | none => Returned.pointer (select_model e print_state).final.best_combination :=
      fun _ => rfl
    rw [r (mirror env), r env, herr, hbest]
  · intro k
    have h1 := congrArg LoopState.best_combination (key k)
    have h2 := congrArg LoopState.best_result (key k)
    exact ⟨h1, h2⟩
  · rw [← releases_without_prints, htr, releases_without_prints]
  · rw [← acquisitions_without_prints, htr, acquisitions_without_prints]
  · intro h
    unfold mirror
    rw [h, neg_neg, ← h]

/-- C16 at scenario B: minimising over the means 0.70, 0.95, 0.81 with sentinel 1000 and
maximising over -0.70, -0.95, -0.81 with sentinel -1000 both return `c0` and release the
same candidates. -/
theorem directions_are_mirror_images_scenario :
    (mirror (scenario EEvaluationDirection.ED_MINIMIZE)).get_evaluation_direction
      = EEvaluationDirection.ED_MAXIMIZE
    ∧ (mirror (scenario EEvaluationDirection.ED_MINIMIZE)).ALMOST_NEG_INFTY = -1000
    ∧ (select_model (scenario EEvaluationDirection.ED_MINIMIZE) false).returned
      = Returned.pointer (some Candidate.c0)
    ∧ (select_model (mirror (scenario EEvaluationDirection.ED_MINIMIZE)) false).returned
      = Returned.pointer (some Candidate.c0)
    ∧ releases
        (select_model (mirror (scenario EEvaluationDirection.ED_MINIMIZE)) false).final.trace
      = [Candidate.c0, Candidate.c1, Candidate.c1, Candidate.c2, Candidate.c2] := by
  obtain ⟨-, -, h3, -, -, h6, -, -, -⟩ :=
    directions_are_mirror_images (scenario EEvaluationDirection.ED_MINIMIZE) false
  have hB : (select_model (scenario EEvaluationDirection.ED_MINIMIZE) false).returned
      = Returned.pointer (some Candidate.c0) := by decide!
  have hr : releases (select_model (scenario EEvaluationDirection.ED_MINIMIZE) false).final.trace
      = [Candidate.c0, Candidate.c1, Candidate.c1, Candidate.c2, Candidate.c2] := by decide!
  exact ⟨rfl, by decide!, hB, h3.trans hB, h6.trans hr⟩

/-- C17. Evaluating more candidates never yields a worse winner.  Fix the candidate space,
the direction, the sentinels and the evaluator outcomes, and let a second run differ from
the first in ratio and sampler only, with an index vector at least as long, no longer
than the space, and well-formed outcomes.  If the first run returns a candidate, the
second returns one too, whose mean is at least as good (`>=` under `ED_MAXIMIZE`, `<=`
under `ED_MINIMIZE`); and when no outcome at a position evaluated by the second run only
strictly improves on the mean of the first winner, both runs return the same candidate
with the same `best_result`. -/
theorem more_candidates_never_worse (env : Env α) (ratio2 : ℚ)
    (sampler2 : Int → Int → List Int) (print_state : Bool) (c1 : α)
    (hk : (combinations_indices env).length
      ≤ (combinations_indices { env with m_ratio := ratio2, sample_indices := sampler2 }).length)
    (hle : (combinations_indices
        { env with m_ratio := ratio2, sample_indices := sampler2 }).length
      ≤ env.get_combinations.length)
    (hwf : well_formed env (combinations_indices
        { env with m_ratio := ratio2, sample_indices := sampler2 }).length)
    (h1 : (select_model env print_state).returned = Returned.pointer (some c1)) :
    ∃ c2, (select_model { env with m_ratio := ratio2, sample_indices := sampler2 }
          print_state).returned = Returned.pointer (some c2)
      ∧ (env.get_evaluation_direction = EEvaluationDirection.ED_MAXIMIZE →
          (select_model env print_state).final.best_result.mean
            ≤ (select_model { env with m_ratio := ratio2, sample_indices := sampler2 }
                print_state).final.best_result.mean)
      ∧ (env.get_evaluation_direction = EEvaluationDirection.ED_MINIMIZE →
          (select_model { env with m_ratio := ratio2, sample_indices := sampler2 }
              print_state).final.best_result.mean
            ≤ (select_model env print_state).final.best_result.mean)
      ∧ ((∀ i, (combinations_indices env).length ≤ i →
            i < (combinations_indices
              { env with m_ratio := ratio2, sample_indices := sampler2 }).length →
            ¬ improves env.get_evaluation_direction (env.evaluate i).mean
              (select_model env print_state).final.best_result.mean) →
          c2 = c1
          ∧ (select_model { env with m_ratio := ratio2, sample_indices := sampler2 }
              print_state).final.best_result
            = (select_model env print_state).final.best_result) := by
  obtain ⟨-, j, hj, a1, a2, a3, a4, a5⟩ := select_model_winner env print_state c1 h1
  rw [select_model_length] at hj a5
  obtain ⟨c2, h2⟩ := select_model_returns_some
    { env with m_ratio := ratio2, sample_indices := sampler2 } print_state hle hwf
    ⟨j, by omega, a3⟩
  obtain ⟨-, j2, hj2, b1, b2, -, b4, b5⟩ := select_model_winner
    { env with m_ratio := ratio2, sample_indices := sampler2 } print_state c2 h2
  rw [select_model_length] at hj2 b5
  have b2e : (select_model { env with m_ratio := ratio2, sample_indices := sampler2 }
      print_state).final.best_result = env.evaluate j2 := b2
  have b4e : ∀ i < j2, improves env.get_evaluation_direction (env.evaluate j2).mean
      (env.evaluate i).mean := b4
  have b5e : ∀ i < (combinations_indices
      { env with m_ratio := ratio2, sample_indices := sampler2 }).length,
      ¬ improves env.get_evaluation_direction (env.evaluate i).mean
        (env.evaluate j2).mean := b5
  have hcmp := b5e j (by omega)
  refine ⟨c2, h2, ?_, ?_, ?_⟩
  · intro hd
    rw [a2, b2e]
    rw [hd] at hcmp
    simpa [improves] using hcmp
  · intro hd
    rw [a2, b2e]
    rw [hd] at hcmp
    simpa [improves] using hcmp
  · intro hno
    rw [a2] at hno
    have hjj : j2 = j := by
      rcases Nat.lt_trichotomy j2 j with h | h | h
      · exact absurd (a4 j2 h) hcmp
      · exact h
      · exfalso
        have hb := b4e j h
        by_cases hin : j2 < (combinations_indices env).length
        · exact a5 j2 hin hb
        · exact hno j2 (by omega) hj2 hb
    subst hjj
    rw [select_model_get_element env print_state j2 hj] at a1
    rw [select_model_get_element _ print_state j2 hj2] at b1
    have b1e : env.get_combinations[j2]? = some c2 := b1
    rw [a1] at b1e
    exact ⟨(Option.some.inj b1e).symm, by rw [a2, b2e]⟩

/-- C17 at scenario A: at ratio 1/2 one candidate is evaluated and `c0`, of mean 0.70, is
returned; at ratio 1 all three are evaluated and `c1`, of mean 0.95 >= 0.70, is
returned. -/
theorem more_candidates_never_worse_scenario :
    (select_model scenario_half false).returned = Returned.pointer (some Candidate.c0)
    ∧ (select_model (scenario EEvaluationDirection.ED_MAXIMIZE) false).returned
        = Returned.pointer (some Candidate.c1)
    ∧ (select_model scenario_half false).final.best_result.mean
        ≤ (select_model
            (scenario EEvaluationDirection.ED_MAXIMIZE) false).final.best_result.mean := by
  have h1 : (select_model scenario_half false).returned
      = Returned.pointer (some Candidate.c0) := by decide!
  obtain ⟨w, -, h3, -⟩ := more_candidates_never_worse scenario_half 1 first_indices false
    Candidate.c0 (by decide!) (by decide!) (by decide!) h1
  exact ⟨h1, by decide!, h3 rfl⟩

end Claims

end Shogun
